import Mathlib

/-!
# Verification of the Backrooms tile-grid simulation core

A shallow embedding of `src/main.py`: the level generator
(`BackroomsGenerator`), the player movement model (`Player.move` /
`Player._can_move_to`), the visibility system (`Game._update_visibility`,
`Game._cast_ray`, `Game._calculate_flashlight_visibility`), the
exploration-memory fade (`Game._update_fade_timers`), and the entity state
machine (`Entity.update`).

Modelling conventions:
* Python's global `random` stream is modelled by `Rng`: an infinite stream of
  naturals together with a cursor.  Each primitive draw (`randint`, `choice`,
  the coin `random.choice([True, False])` / `random.random() < p`) consumes
  one stream element; any concrete sequence of values Python's generator can
  produce corresponds to some stream, so quantifying over all streams covers
  every run of the program.  `randint lo hi` clamps into `[lo, hi]`
  (`lo + raw % (hi + 1 - lo)`), the contract Python's `randint` guarantees
  whenever `lo ≤ hi` (which holds in every reachable call site under the grid
  size hypotheses used below).
* Python floats are embedded as rationals (`ℚ`); `//` on floats is
  mathematical floor, `int(...)` is truncation toward zero.  The
  transcendental `cos`/`sin` used for ray directions and entity offsets are
  abstracted as unconstrained function parameters ("trig oracles"): every
  theorem below is proved for all oracles, hence covers the real functions.
* The tile grid `grid[y][x]` is a function `ℕ → ℕ → TileType` together with
  its dimensions.  Rectangle-painting loops that write a constant tile under
  a per-cell condition are written as their pointwise closed form (the loop's
  net effect); sequential loops whose later iterations read earlier writes
  (room placement, tile scatter, corridor phases) are kept as folds.
* The unbounded `while` loops of room placement are given an explicit fuel
  parameter; theorems quantify over the fuel, so they apply to every
  terminating Python execution.
-/

namespace Backrooms

/-- `TileType` enum of `main.py`. -/
inductive TileType where
  | empty
  | wall
  | floor
  | door
  | exit
  | vent
  | waterDamage
  | electrical
  | stairwell
  | elevator
  | levelExit
  | pool
  | poolEdge
deriving DecidableEq, Repr

/-- `RoomType` enum of `main.py`, in declaration order (used by
`random.choice(list(RoomType))`). -/
inductive RoomType where
  | officeSpace
  | longHallway
  | conferenceRoom
  | storageRoom
  | electricalRoom
  | floodedArea
  | maintenance
  | lobby
  | cafeteria
  | bathroom
  | serverRoom
  | abandonedOffice
  | poolArea
  | poolCorridor
  | poolChanging
deriving DecidableEq, Repr

/-- `LevelType` enum of `main.py`. -/
inductive LevelType where
  | level0
  | poolrooms
deriving DecidableEq, Repr

/-- The `Room` dataclass.  The `connections` field is dropped: it is
initialized to `[]` and never read or written anywhere in `main.py`, so it
does not influence any behaviour (dataclass equality compares it, but it is
`[]` on every room). -/
structure Room where
  x : Nat
  y : Nat
  width : Nat
  height : Nat
  roomType : RoomType
  isLit : Bool
deriving DecidableEq, Repr

instance : Inhabited Room := ⟨⟨0, 0, 0, 0, RoomType.officeSpace, false⟩⟩

/-- `Room.center`. -/
def Room.center (r : Room) : Nat × Nat := (r.x + r.width / 2, r.y + r.height / 2)

/-- `Room.overlaps` (the boolean returned by the Python method). -/
def Room.overlaps (r other : Room) : Bool :=
  !(r.x + r.width ≤ other.x || other.x + other.width ≤ r.x ||
    r.y + r.height ≤ other.y || other.y + other.height ≤ r.y)

/-- Membership of a grid cell `(x, y)` in a room's rectangle. -/
def Room.inRect (r : Room) (c : Nat × Nat) : Prop :=
  r.x ≤ c.1 ∧ c.1 < r.x + r.width ∧ r.y ≤ c.2 ∧ c.2 < r.y + r.height

instance (r : Room) (c : Nat × Nat) : Decidable (r.inRect c) := by
  unfold Room.inRect; infer_instance

/-- The strict interior of a room: cells at least one tile away from the
room-rectangle border.  Every feature-painting write of the generator lands
in the strict interior of the room being decorated. -/
def Room.inInterior (r : Room) (c : Nat × Nat) : Prop :=
  r.x + 1 ≤ c.1 ∧ c.1 + 2 ≤ r.x + r.width ∧ r.y + 1 ≤ c.2 ∧ c.2 + 2 ≤ r.y + r.height

instance (r : Room) (c : Nat × Nat) : Decidable (r.inInterior c) := by
  unfold Room.inInterior; infer_instance

/-! ## The random source -/

/-- The model of Python's global `random` stream: an infinite sequence of raw
naturals and a cursor. -/
structure Rng where
  seq : Nat → Nat
  k : Nat

/-- Draw one raw value and advance. -/
def Rng.next (r : Rng) : Nat × Rng := (r.seq r.k, ⟨r.seq, r.k + 1⟩)

/-- `random.randint(lo, hi)`: an arbitrary value of `[lo, hi]` (for
`lo ≤ hi`; every call site below satisfies this under the stated grid-size
hypotheses). -/
def Rng.randint (r : Rng) (lo hi : Nat) : Nat × Rng :=
  let (v, r') := r.next
  (lo + v % max 1 (hi + 1 - lo), r')

/-- A boolean draw: models both `random.choice([True, False])` and
`random.random() < p` (each is one stream draw whose boolean outcome is
unconstrained). -/
def Rng.randBool (r : Rng) : Bool × Rng :=
  let (v, r') := r.next
  (v % 2 == 0, r')

/-- `random.choice` on a list of length `n`: an arbitrary index `< n`. -/
def Rng.choiceIdx (r : Rng) (n : Nat) : Nat × Rng :=
  let (v, r') := r.next
  (v % max 1 n, r')

theorem Rng.randint_fst (r : Rng) (lo hi : Nat) :
    (r.randint lo hi).1 = lo + r.seq r.k % max 1 (hi + 1 - lo) := rfl

theorem Rng.randint_mem {r : Rng} {lo hi : Nat} (h : lo ≤ hi) :
    lo ≤ (r.randint lo hi).1 ∧ (r.randint lo hi).1 ≤ hi := by
  rw [Rng.randint_fst]
  have h1 : max 1 (hi + 1 - lo) = hi + 1 - lo := by omega
  rw [h1]
  refine ⟨Nat.le_add_right _ _, ?_⟩
  have h2 := Nat.mod_lt (r.seq r.k) (y := hi + 1 - lo) (by omega)
  omega

theorem Rng.choiceIdx_fst (r : Rng) (n : Nat) :
    (r.choiceIdx n).1 = r.seq r.k % max 1 n := rfl

theorem Rng.choiceIdx_lt {r : Rng} {n : Nat} (h : 0 < n) :
    (r.choiceIdx n).1 < n := by
  rw [Rng.choiceIdx_fst]
  have h1 : max 1 n = n := by omega
  simpa [h1] using Nat.mod_lt (r.seq r.k) h

/-! ## Level generation: state and room placement -/

/-- The mutable state of `BackroomsGenerator`: `self.width`, `self.height`,
`self.grid` (as `grid y x`, matching `self.grid[y][x]`), `self.rooms`. -/
structure GenState where
  width : Nat
  height : Nat
  grid : Nat → Nat → TileType
  rooms : List Room

/-- `BackroomsGenerator.__init__`: an all-wall grid and no rooms. -/
def initGen (w h : Nat) : GenState :=
  ⟨w, h, fun _ _ => TileType.wall, []⟩

/-- Write one grid cell (`self.grid[y][x] = t`). -/
def setTile (g : Nat → Nat → TileType) (y x : Nat) (t : TileType) :
    Nat → Nat → TileType :=
  fun yy xx => if yy = y ∧ xx = x then t else g yy xx

/-- `_carve_room`: the double loop over the room rectangle writing `FLOOR`
into every in-bounds cell, as its pointwise closed form. -/
def carveRoom (g : GenState) (room : Room) : GenState :=
  { g with grid := fun y x =>
      if room.y ≤ y ∧ y < room.y + room.height ∧
         room.x ≤ x ∧ x < room.x + room.width ∧
         x < g.width ∧ y < g.height then TileType.floor
      else g.grid y x }

/-- The `size_ranges` table of `_get_room_size`:
`(min_w, max_w, min_h, max_h)`. -/
def sizeRanges : RoomType → Nat × Nat × Nat × Nat
  | RoomType.officeSpace => (8, 16, 6, 12)
  | RoomType.longHallway => (20, 40, 3, 6)
  | RoomType.conferenceRoom => (10, 16, 8, 14)
  | RoomType.storageRoom => (4, 8, 4, 8)
  | RoomType.electricalRoom => (5, 8, 5, 8)
  | RoomType.floodedArea => (8, 14, 8, 14)
  | RoomType.maintenance => (6, 10, 4, 8)
  | RoomType.lobby => (12, 20, 10, 16)
  | RoomType.cafeteria => (12, 18, 8, 14)
  | RoomType.bathroom => (4, 8, 6, 10)
  | RoomType.serverRoom => (6, 10, 6, 10)
  | RoomType.abandonedOffice => (6, 12, 6, 12)
  | RoomType.poolArea => (15, 25, 10, 20)
  | RoomType.poolCorridor => (25, 45, 4, 8)
  | RoomType.poolChanging => (8, 12, 6, 10)

/-- `_get_room_size`: two `randint` draws from the type's range. -/
def getRoomSize (t : RoomType) (r : Rng) : (Nat × Nat) × Rng :=
  let sr := sizeRanges t
  let wr := r.randint sr.1 sr.2.1
  let hr := wr.2.randint sr.2.2.1 sr.2.2.2
  ((wr.1, hr.1), hr.2)

/-- `list(RoomType)` in declaration order. -/
def roomTypeList : List RoomType :=
  [RoomType.officeSpace, RoomType.longHallway, RoomType.conferenceRoom,
   RoomType.storageRoom, RoomType.electricalRoom, RoomType.floodedArea,
   RoomType.maintenance, RoomType.lobby, RoomType.cafeteria,
   RoomType.bathroom, RoomType.serverRoom, RoomType.abandonedOffice,
   RoomType.poolArea, RoomType.poolCorridor, RoomType.poolChanging]

/-- The room types skipped by `_generate_rooms` (Level 0). -/
def isPoolType (t : RoomType) : Bool :=
  t == RoomType.poolArea || t == RoomType.poolCorridor || t == RoomType.poolChanging

/-- One non-skipped iteration body shared by `_generate_rooms` and
`_generate_pool_rooms`: draw size and position, draw the lit coin, and accept
the room if it overlaps no existing room (append + carve). -/
def placeRoomBody (g : GenState) (rt : RoomType) (r : Rng) : GenState × Rng :=
  let sz := getRoomSize rt r
  let w := sz.1.1
  let h := sz.1.2
  let xr := sz.2.randint 1 (g.width - w - 1)
  let yr := xr.2.randint 1 (g.height - h - 1)
  let litr := yr.2.randBool
  let newRoom : Room := ⟨xr.1, yr.1, w, h, rt, litr.1⟩
  if g.rooms.any (fun ex => newRoom.overlaps ex) then (g, litr.2)
  else (carveRoom { g with rooms := g.rooms ++ [newRoom] } newRoom, litr.2)

/-- The `while len(self.rooms) < 20 and attempts < 150` loop of
`_generate_rooms`, with explicit fuel.  A pool-type draw runs `continue`
before `attempts += 1`, so it does not advance the attempt counter. -/
def generateRoomsLoop : Nat → GenState × Nat × Rng → GenState × Nat × Rng
  | 0, s => s
  | fuel + 1, (g, attempts, r) =>
    if g.rooms.length < 20 ∧ attempts < 150 then
      let ir := r.choiceIdx roomTypeList.length
      let rt := roomTypeList.getD ir.1 RoomType.officeSpace
      if isPoolType rt then generateRoomsLoop fuel (g, attempts, ir.2)
      else
        let pr := placeRoomBody g rt ir.2
        generateRoomsLoop fuel (pr.1, attempts + 1, pr.2)
    else (g, attempts, r)

/-- `_generate_rooms`. -/
def generateRooms (g : GenState) (fuel : Nat) (r : Rng) : GenState × Rng :=
  let s := generateRoomsLoop fuel (g, 0, r)
  (s.1, s.2.2)

/-- `pool_room_types` of `_generate_pool_rooms`. -/
def poolRoomTypeList : List RoomType :=
  [RoomType.poolArea, RoomType.poolCorridor, RoomType.poolChanging]

/-- The `while len(self.rooms) < 15 and attempts < 150` loop of
`_generate_pool_rooms` (every iteration counts an attempt). -/
def generatePoolRoomsLoop : Nat → GenState × Nat × Rng → GenState × Nat × Rng
  | 0, s => s
  | fuel + 1, (g, attempts, r) =>
    if g.rooms.length < 15 ∧ attempts < 150 then
      let ir := r.choiceIdx poolRoomTypeList.length
      let rt := poolRoomTypeList.getD ir.1 RoomType.poolArea
      let pr := placeRoomBody g rt ir.2
      generatePoolRoomsLoop fuel (pr.1, attempts + 1, pr.2)
    else (g, attempts, r)

/-- `_generate_pool_rooms`. -/
def generatePoolRooms (g : GenState) (fuel : Nat) (r : Rng) : GenState × Rng :=
  let s := generatePoolRoomsLoop fuel (g, 0, r)
  (s.1, s.2.2)

/-! ## Corridors and the connection phase -/

/-- The horizontal stroke of `_create_corridor`: paint `FLOOR` along row `yr`
for every in-bounds `x ∈ [min x1 x2, max x1 x2]` (closed form of the loop,
which checks `0 <= x < self.width and 0 <= yr < self.height` per cell). -/
def paintHorizontal (g : GenState) (x1 x2 yr : Nat) : GenState :=
  { g with grid := fun y x =>
      if y = yr ∧ min x1 x2 ≤ x ∧ x ≤ max x1 x2 ∧ x < g.width ∧ yr < g.height then
        TileType.floor
      else g.grid y x }

/-- The vertical stroke of `_create_corridor`. -/
def paintVertical (g : GenState) (y1 y2 xc : Nat) : GenState :=
  { g with grid := fun y x =>
      if x = xc ∧ min y1 y2 ≤ y ∧ y ≤ max y1 y2 ∧ xc < g.width ∧ y < g.height then
        TileType.floor
      else g.grid y x }

/-- `_create_corridor`: a coin chooses horizontal-then-vertical (the vertical
stroke at column `x2`) or vertical-then-horizontal (the vertical stroke at
column `x1`, then the horizontal stroke at row `y2`). -/
def createCorridor (g : GenState) (s e : Nat × Nat) (r : Rng) : GenState × Rng :=
  let cr := r.randBool
  if cr.1 then
    (paintVertical (paintHorizontal g s.1 e.1 s.2) s.2 e.2 e.1, cr.2)
  else
    (paintHorizontal (paintVertical g s.2 e.2 s.1) s.1 e.1 e.2, cr.2)

/-- The `while unconnected:` spanning-tree loop of `_connect_rooms`.
Python's `random.choice(list(connected))` over a `set` is modelled as a
uniformly random index into a list holding the same elements. -/
def connectLoop (g : GenState) (connected : List Nat) :
    List Nat → Rng → GenState × Rng
  | [], r => (g, r)
  | b :: bs, r =>
    let ar := r.choiceIdx connected.length
    let ib := (ar.2.choiceIdx (b :: bs).length).1
    let r2 := (ar.2.choiceIdx (b :: bs).length).2
    let aIdx := connected.getD ar.1 0
    let bIdx := (b :: bs).getD ib 0
    let roomA := g.rooms.getD aIdx default
    let roomB := g.rooms.getD bIdx default
    let cr := createCorridor g roomA.center roomB.center r2
    connectLoop cr.1 (connected ++ [bIdx]) ((b :: bs).eraseIdx ib) cr.2
termination_by bs => bs.length
decreasing_by
  have hib : ((r.choiceIdx connected.length).2.choiceIdx ((b :: bs).length)).1 <
      (b :: bs).length :=
    Rng.choiceIdx_lt (Nat.succ_pos bs.length)
  have h2 := List.length_eraseIdx_add_one hib
  simp only [List.length_cons] at h2 hib ⊢
  omega

/-- The extra-corridor loop of `_connect_rooms`
(`for _ in range(len(self.rooms) // 3)`); the corridor coin is drawn only
when the two chosen rooms differ (dataclass equality). -/
def extraCorridors (g0 : GenState) (n : Nat) (r0 : Rng) : GenState × Rng :=
  (List.range n).foldl
    (fun (s : GenState × Rng) _ =>
      let ar := s.2.choiceIdx s.1.rooms.length
      let br := ar.2.choiceIdx s.1.rooms.length
      let roomA := s.1.rooms.getD ar.1 default
      let roomB := s.1.rooms.getD br.1 default
      if roomA ≠ roomB then createCorridor s.1 roomA.center roomB.center br.2
      else (s.1, br.2))
    (g0, r0)

/-- `_connect_rooms`. -/
def connectRooms (g : GenState) (r : Rng) : GenState × Rng :=
  if g.rooms.length < 2 then (g, r)
  else
    let cl := connectLoop g [0] (List.range' 1 (g.rooms.length - 1)) r
    extraCorridors cl.1 (cl.1.rooms.length / 3) cl.2

/-! ## Feature painting -/

/-- The scatter loops of `_add_features_by_type` / `_add_poolrooms_features`:
`count` times draw an interior cell and overwrite it with `t` if it is
currently `FLOOR`. -/
def scatterTiles (g0 : GenState) (room : Room) (t : TileType) (count : Nat)
    (r0 : Rng) : GenState × Rng :=
  (List.range count).foldl
    (fun (s : GenState × Rng) _ =>
      let xr := s.2.randint (room.x + 1) (room.x + room.width - 2)
      let yr := xr.2.randint (room.y + 1) (room.y + room.height - 2)
      if s.1.grid yr.1 xr.1 = TileType.floor then
        ({ s.1 with grid := setTile s.1.grid yr.1 xr.1 t }, yr.2)
      else (s.1, yr.2))
    (g0, r0)

/-- The `FLOODED_AREA` branch of `_add_features_by_type`: paint a centered
`water_width × water_height` block of `WATER_DAMAGE`, restricted to cells
strictly inside the room rectangle (closed form of the double loop; it draws
nothing from the random stream). -/
def paintWaterBlock (g : GenState) (room : Room) : GenState :=
  let c := room.center
  let ww := max 2 (room.width / 2)
  let wh := max 2 (room.height / 2)
  let sx := c.1 - ww / 2
  let sy := c.2 - wh / 2
  { g with grid := fun y x =>
      if sy ≤ y ∧ y < sy + wh ∧ sx ≤ x ∧ x < sx + ww ∧
         room.x < x ∧ x < room.x + room.width - 1 ∧
         room.y < y ∧ y < room.y + room.height - 1 then TileType.waterDamage
      else g.grid y x }

/-- `_add_features_by_type` for one room. -/
def addFeaturesByType (g : GenState) (room : Room) (r : Rng) : GenState × Rng :=
  match room.roomType with
  | RoomType.storageRoom =>
    let cr := r.randint 1 3
    scatterTiles g room TileType.exit cr.1 cr.2
  | RoomType.electricalRoom =>
    let cr := r.randint 2 4
    scatterTiles g room TileType.electrical cr.1 cr.2
  | RoomType.floodedArea => (paintWaterBlock g room, r)
  | RoomType.maintenance =>
    let cr := r.randint 1 3
    scatterTiles g room TileType.vent cr.1 cr.2
  | _ => (g, r)

/-- `_add_room_features`: fold `_add_features_by_type` over the room list. -/
def addRoomFeatures (g0 : GenState) (r0 : Rng) : GenState × Rng :=
  g0.rooms.foldl (fun (s : GenState × Rng) room => addFeaturesByType s.1 room s.2)
    (g0, r0)

/-- The pool-edge ring pass of `_add_pools` for one `POOL_AREA` room (closed
form; no random draws).  `sx, sy, pw, ph` are the pool rectangle parameters
computed in the Python method. -/
def paintPoolEdges (g : GenState) (room : Room) (sx sy pw ph : Nat) : GenState :=
  { g with grid := fun y x =>
      if sy - 1 ≤ y ∧ y < sy + ph + 1 ∧ sx - 1 ≤ x ∧ x < sx + pw + 1 ∧
         room.x + 2 ≤ x ∧ x ≤ room.x + room.width - 3 ∧
         room.y + 2 ≤ y ∧ y ≤ room.y + room.height - 3 ∧
         (x = sx - 1 ∨ x = sx + pw ∨ y = sy - 1 ∨ y = sy + ph) ∧
         ¬((x ≤ room.x + 2 ∨ x ≥ room.x + room.width - 3) ∨
           (y ≤ room.y + 2 ∨ y ≥ room.y + room.height - 3)) then TileType.poolEdge
      else g.grid y x }

/-- The pool-water pass of `_add_pools` for one `POOL_AREA` room (closed
form; no random draws). -/
def paintPoolWater (g : GenState) (room : Room) (sx sy pw ph : Nat) : GenState :=
  { g with grid := fun y x =>
      if sy ≤ y ∧ y < sy + ph ∧ sx ≤ x ∧ x < sx + pw ∧
         room.x + 2 < x ∧ x < room.x + room.width - 3 ∧
         room.y + 2 < y ∧ y < room.y + room.height - 3 then TileType.pool
      else g.grid y x }

/-- `_add_pools` for one room: compute the pool rectangle and apply the edge
ring then the water fill (`POOL_AREA` rooms only). -/
def addPoolToRoom (g : GenState) (room : Room) : GenState :=
  if room.roomType = RoomType.poolArea then
    let pw := max 3 (min (room.width - 6) (room.width / 2))
    let ph := max 3 (min (room.height - 6) (room.height / 2))
    let sx := room.x + (room.width - pw) / 2
    let sy := room.y + (room.height - ph) / 2
    paintPoolWater (paintPoolEdges g room sx sy pw ph) room sx sy pw ph
  else g

/-- `_add_pools`. -/
def addPools (g0 : GenState) : GenState :=
  g0.rooms.foldl addPoolToRoom g0

/-- `_add_poolrooms_features`: benches (`EXIT` tiles) scattered in
`POOL_CHANGING` rooms. -/
def addPoolroomsFeatures (g0 : GenState) (r0 : Rng) : GenState × Rng :=
  g0.rooms.foldl
    (fun (s : GenState × Rng) room =>
      if room.roomType = RoomType.poolChanging then
        let cr := s.2.randint 1 2
        scatterTiles s.1 room TileType.exit cr.1 cr.2
      else s)
    (g0, r0)

/-- `_add_level_exit`: pick a room of area ≥ 64 (falling back to all rooms),
then convert the first of its four interior corners that is still `FLOOR`
into `LEVEL_EXIT`. -/
def addLevelExit (g : GenState) (r : Rng) : GenState × Rng :=
  match g.rooms with
  | [] => (g, r)
  | _ :: _ =>
    let suitable := g.rooms.filter (fun room => 64 ≤ room.width * room.height)
    let pool := if suitable.isEmpty then g.rooms else suitable
    let ir := r.choiceIdx pool.length
    let r1 := ir.2
    let er := pool.getD ir.1 default
    let corners : List (Nat × Nat) :=
      [(er.x + 1, er.y + 1), (er.x + er.width - 2, er.y + 1),
       (er.x + 1, er.y + er.height - 2), (er.x + er.width - 2, er.y + er.height - 2)]
    match corners.find? (fun c =>
        c.1 < g.width ∧ c.2 < g.height ∧ g.grid c.2 c.1 = TileType.floor) with
    | some c => ({ g with grid := setTile g.grid c.2 c.1 TileType.levelExit }, r1)
    | none => (g, r1)

/-- `_generate_level_0`. -/
def generateLevel0 (g : GenState) (fuel : Nat) (r : Rng) : GenState × Rng :=
  let s1 := generateRooms g fuel r
  let s2 := connectRooms s1.1 s1.2
  let s3 := addRoomFeatures s2.1 s2.2
  addLevelExit s3.1 s3.2

/-- `_generate_poolrooms`. -/
def generatePoolroomsLevel (g : GenState) (fuel : Nat) (r : Rng) : GenState × Rng :=
  let s1 := generatePoolRooms g fuel r
  let s2 := connectRooms s1.1 s1.2
  let g3 := addPools s2.1
  let s4 := addPoolroomsFeatures g3 s2.2
  addLevelExit s4.1 s4.2

/-- `BackroomsGenerator.generate`, from a fresh all-wall generator state. -/
def generate (w h : Nat) (lt : LevelType) (fuel : Nat) (r : Rng) : GenState × Rng :=
  match lt with
  | LevelType.poolrooms => generatePoolroomsLevel (initGen w h) fuel r
  | LevelType.level0 => generateLevel0 (initGen w h) fuel r

/-! ## Numeric helpers for the float-embedding -/

/-- Python `int(q)`: truncation toward zero. -/
def pyTrunc (q : ℚ) : ℤ := Int.tdiv q.num (q.den : ℤ)

/-- Python `int(q // TILE_SIZE)` with `TILE_SIZE = 20`: `//` on floats is
mathematical floor and `int` of the already-integral result keeps it. -/
def gridIdx (q : ℚ) : ℤ := ⌊q / 20⌋

theorem pyTrunc_eq_floor_of_nonneg (q : ℚ) (h : 0 ≤ q) : pyTrunc q = ⌊q⌋ := by
  unfold pyTrunc
  rw [Rat.floor_def]
  exact Int.tdiv_eq_ediv ((Rat.num_nonneg).2 h) (Int.natCast_nonneg _)

/-! ## Game constants (`main.py` module constants) -/

def MAX_STAMINA : ℚ := 100
def STAMINA_DRAIN_RATE : ℚ := 3 / 2
def STAMINA_REGEN_RATE : ℚ := 4 / 5
def SPRINT_MULTIPLIER : ℚ := 2
def FADE_TIME : ℕ := 300
def FADE_RATE : ℚ := 1 / (FADE_TIME : ℚ)

/-! ## MovementModel: `Player` -/

/-- `Player` state (fields used by `move`). -/
structure Player where
  x : ℚ
  y : ℚ
  angle : ℚ
  hasFlashlight : Bool
  stamina : ℚ
  isSprinting : Bool
  canSprint : Bool

/-- The five probe points of `_can_move_to` (`player_size = 8`). -/
def probePositions (x y : ℚ) : List (ℚ × ℚ) :=
  [(x - 8, y - 8), (x + 8, y - 8), (x - 8, y + 8), (x + 8, y + 8), (x, y)]

/-- `Player._can_move_to`: every probe maps to an in-bounds cell that is
neither `WALL` nor `POOL_EDGE`. -/
def canMoveTo (W H : Nat) (tile : Nat → Nat → TileType) (x y : ℚ) : Bool :=
  (probePositions x y).all fun c =>
    let gx := gridIdx c.1
    let gy := gridIdx c.2
    if 0 ≤ gx ∧ gx < (W : ℤ) ∧ 0 ≤ gy ∧ gy < (H : ℤ) then
      let t := tile gy.toNat gx.toNat
      !(t == TileType.wall || t == TileType.poolEdge)
    else false

/-- The propositional reading of one probe being acceptable. -/
def probeOk (W H : Nat) (tile : Nat → Nat → TileType) (c : ℚ × ℚ) : Prop :=
  0 ≤ gridIdx c.1 ∧ gridIdx c.1 < (W : ℤ) ∧ 0 ≤ gridIdx c.2 ∧ gridIdx c.2 < (H : ℤ) ∧
  tile (gridIdx c.2).toNat (gridIdx c.1).toNat ≠ TileType.wall ∧
  tile (gridIdx c.2).toNat (gridIdx c.1).toNat ≠ TileType.poolEdge

instance (W H : Nat) (tile : Nat → Nat → TileType) (c : ℚ × ℚ) :
    Decidable (probeOk W H tile c) := by
  unfold probeOk; infer_instance

theorem canMoveTo_iff (W H : Nat) (tile : Nat → Nat → TileType) (x y : ℚ) :
    canMoveTo W H tile x y = true ↔
      ∀ c ∈ probePositions x y, probeOk W H tile c := by
  unfold canMoveTo probeOk
  rw [List.all_eq_true]
  refine forall_congr' fun c => forall_congr' fun _ => ?_
  by_cases h : 0 ≤ gridIdx c.1 ∧ gridIdx c.1 < (W : ℤ) ∧ 0 ≤ gridIdx c.2 ∧ gridIdx c.2 < (H : ℤ)
  · simp only [if_pos h]
    obtain ⟨h1, h2, h3, h4⟩ := h
    constructor
    · intro hb
      simp only [Bool.not_eq_true', Bool.or_eq_false_iff, beq_eq_false_iff_ne] at hb
      exact ⟨h1, h2, h3, h4, hb.1, hb.2⟩
    · intro hp
      simp only [Bool.not_eq_true', Bool.or_eq_false_iff, beq_eq_false_iff_ne]
      exact ⟨hp.2.2.2.2.1, hp.2.2.2.2.2⟩
  · simp only [if_neg h]
    constructor
    · intro hb; exact absurd hb (by simp)
    · intro hp; exact absurd ⟨hp.1, hp.2.1, hp.2.2.1, hp.2.2.2.1⟩ h

/-- `Player.move`: the sprint/stamina update followed by axis-separated
collision-checked movement. -/
def Player.move (p : Player) (dx dy : ℚ) (W H : Nat)
    (tile : Nat → Nat → TileType) (isSprintPressed : Bool) : Player :=
  let canSprintFlag :=
    if p.stamina ≤ 0 then false
    else if p.stamina ≥ MAX_STAMINA then true
    else p.canSprint
  let sprintNow := canSprintFlag && isSprintPressed && (decide (dx ≠ 0) || decide (dy ≠ 0))
  let stamina' :=
    if sprintNow then max 0 (p.stamina - STAMINA_DRAIN_RATE)
    else if p.stamina < MAX_STAMINA then min MAX_STAMINA (p.stamina + STAMINA_REGEN_RATE)
    else p.stamina
  let mult : ℚ := if sprintNow then SPRINT_MULTIPLIER else 1
  let dx' := dx * mult
  let dy' := dy * mult
  let x' := if canMoveTo W H tile (p.x + dx') p.y then p.x + dx' else p.x
  let y' := if canMoveTo W H tile x' (p.y + dy') then p.y + dy' else p.y
  { p with x := x', y := y', stamina := stamina',
           isSprinting := sprintNow, canSprint := canSprintFlag }

/-! ## VisibilitySystem -/

/-- `Game._cast_ray`: march from `(x, y)` (tile units) in direction
`(dx, dy)` in `0.1` steps while `dist < maxDist`, marking every traversed
in-bounds cell and stopping (after marking) on the first `WALL` cell, or
immediately on leaving the grid.  `fuel` is an upper bound on the number of
iterations; `castRay` below supplies one that covers the whole march. -/
def castRayAux (W H : Nat) (tile : Nat → Nat → TileType) (dx dy maxDist : ℚ) :
    Nat → ℚ → ℚ → ℚ → Finset (ℕ × ℕ) → Finset (ℕ × ℕ)
  | 0, _, _, _, acc => acc
  | fuel + 1, x, y, dist, acc =>
    if dist < maxDist then
      let gx := pyTrunc x
      let gy := pyTrunc y
      if 0 ≤ gx ∧ gx < (W : ℤ) ∧ 0 ≤ gy ∧ gy < (H : ℤ) then
        let acc1 := insert (gx.toNat, gy.toNat) acc
        if tile gy.toNat gx.toNat = TileType.wall then acc1
        else castRayAux W H tile dx dy maxDist fuel (x + dx * (1 / 10)) (y + dy * (1 / 10))
          (dist + 1 / 10) acc1
      else acc
    else acc

/-- `Game._cast_ray` with enough fuel for the whole march (the marched
distance grows by exactly `1/10` per iteration from `0`). -/
def castRay (W H : Nat) (tile : Nat → Nat → TileType) (sx sy dx dy maxDist : ℚ)
    (acc : Finset (ℕ × ℕ)) : Finset (ℕ × ℕ) :=
  castRayAux W H tile dx dy maxDist ((⌈maxDist * 10⌉).toNat + 1) sx sy 0 acc

/-- `range(int(start_angle), int(end_angle) + 1, 2)`: the sampled flashlight
angles. -/
def angleList (startA stopA : ℤ) : List ℤ :=
  (List.range ((stopA - startA + 1) / 2).toNat).map fun i => startA + 2 * Int.ofNat i

/-- `Game._calculate_flashlight_visibility`.  `trig a` stands for
`(cos(radians(a)), sin(radians(a)))`; it is an arbitrary parameter, so every
theorem quantifying over `trig` covers the real trigonometric functions. -/
def calculateFlashlight (W H : Nat) (tile : Nat → Nat → TileType) (p : Player)
    (trig : ℤ → ℚ × ℚ) (acc : Finset (ℕ × ℕ)) : Finset (ℕ × ℕ) :=
  if p.hasFlashlight then
    let startA := pyTrunc (p.angle - 60 / 2)
    let stopA := pyTrunc (p.angle + 60 / 2) + 1
    (angleList startA stopA).foldl
      (fun s a => castRay W H tile (p.x / 20) (p.y / 20) (trig a).1 (trig a).2
        ((80 : ℕ) / 20 : ℕ) s)
      acc
  else acc

/-- `Game._get_current_room`: the first room (list order) whose rectangle
contains the player's grid cell. -/
def getCurrentRoom (rooms : List Room) (px py : ℚ) : Option Room :=
  let gx := gridIdx px
  let gy := gridIdx py
  rooms.find? fun room =>
    decide ((room.x : ℤ) ≤ gx ∧ gx < (room.x : ℤ) + room.width ∧
            (room.y : ℤ) ≤ gy ∧ gy < (room.y : ℤ) + room.height)

/-- The cells added by the lit-room pass of `_update_visibility`: every
in-bounds cell of the room rectangle (closed form of the double loop with its
per-cell bounds check). -/
def roomVisibleCells (W H : Nat) (room : Room) : Finset (ℕ × ℕ) :=
  (Finset.range W ×ˢ Finset.range H).filter fun c =>
    room.x ≤ c.1 ∧ c.1 < room.x + room.width ∧ room.y ≤ c.2 ∧ c.2 < room.y + room.height

/-- `Game._update_visibility`, computing the new `visible_tiles` set: clear,
add the lit current room's rectangle (if any), then always run the
flashlight. -/
def updateVisibility (W H : Nat) (tile : Nat → Nat → TileType)
    (rooms : List Room) (p : Player) (trig : ℤ → ℚ × ℚ) : Finset (ℕ × ℕ) :=
  let base : Finset (ℕ × ℕ) := ∅
  let withRoom :=
    match getCurrentRoom rooms p.x p.y with
    | some room => if room.isLit then base ∪ roomVisibleCells W H room else base
    | none => base
  calculateFlashlight W H tile p trig withRoom

/-! ## ExplorationMemory -/

/-- `self.explored_tiles`: a partial map from grid cell to fade strength. -/
def ExploredMap : Type := (ℕ × ℕ) → Option ℚ

/-- `Game._update_fade_timers`: decay every stored cell that is not
currently visible by `FADE_RATE`, clamped at `0`, and drop entries that
reach `0`. -/
def updateFadeTimers (m : ExploredMap) (vis : Finset (ℕ × ℕ)) : ExploredMap :=
  fun c =>
    match m c with
    | none => none
    | some v =>
      if c ∈ vis then some v
      else
        let nv := max 0 (v - FADE_RATE)
        if nv ≤ 0 then none else some nv

/-- The refresh loop at the end of `_update_visibility`: every visible cell
is stored at full strength `1.0`. -/
def refreshExplored (m : ExploredMap) (vis : Finset (ℕ × ℕ)) : ExploredMap :=
  fun c => if c ∈ vis then some 1 else m c

/-- One tick of exploration-memory bookkeeping as performed by
`_update_visibility`: fade pass, then refresh pass. -/
def exploredTick (m : ExploredMap) (vis : Finset (ℕ × ℕ)) : ExploredMap :=
  refreshExplored (updateFadeTimers m vis) vis

/-! ## EntityAI -/

/-- `Entity` state. -/
structure Entity where
  x : ℚ
  y : ℚ
  visible : Bool
  visibilityTimer : ℤ
  spawnTimer : ℤ
  angle : ℚ
  lastPlayerX : ℚ
  lastPlayerY : ℚ
  moveTimer : ℤ
  targetAngle : ℚ

/-- The transcendental functions used by `Entity.update`, abstracted:
`unitOf n` is `(cos θ, sin θ)` for the `random.uniform(0, 2π)` draw whose raw
stream value is `n`; `deg360 n` is the `random.uniform(0, 360)` draw itself;
`dirOfDeg a` is `(cos(radians(a)), sin(radians(a)))`. -/
structure TrigOracle where
  unitOf : Nat → ℚ × ℚ
  deg360 : Nat → ℚ
  dirOfDeg : ℚ → ℚ × ℚ

/-- `Entity._can_move_to` — textually identical to `Player._can_move_to`
(`entity_size = 8`). -/
def entityCanMoveTo (W H : Nat) (tile : Nat → Nat → TileType) (x y : ℚ) : Bool :=
  canMoveTo W H tile x y

/-- The spawn-attempt loop of `Entity.update` (`while attempts < 20 and not
spawned`): draw a distance in `[120, 180]` and a direction, and accept the
candidate iff its grid cell is in-bounds, `FLOOR`, and not currently
visible. -/
def spawnLoop (W H : Nat) (tile : Nat → Nat → TileType) (vis : Finset (ℕ × ℕ))
    (px py : ℚ) (tr : TrigOracle) : Nat → Rng → Option (ℚ × ℚ) × Rng
  | 0, r => (none, r)
  | n + 1, r =>
    let dr := r.randint 120 180
    let ar := dr.2.next
    let u := tr.unitOf ar.1
    let sx := px + u.1 * (dr.1 : ℚ)
    let sy := py + u.2 * (dr.1 : ℚ)
    let gx := gridIdx sx
    let gy := gridIdx sy
    if 0 ≤ gx ∧ gx < (W : ℤ) ∧ 0 ≤ gy ∧ gy < (H : ℤ) ∧
        tile gy.toNat gx.toNat = TileType.floor then
      if (gx.toNat, gy.toNat) ∈ vis then spawnLoop W H tile vis px py tr n ar.2
      else (some (sx, sy), ar.2)
    else spawnLoop W H tile vis px py tr n ar.2

/-- Lines 143–186 of `Entity.update`: decrement the spawn countdown and, if
it expired while hidden, run the placement attempts; on success become
visible and draw the duration and next spawn countdowns, on failure retry in
one second. -/
def entitySpawnPhase (W H : Nat) (tile : Nat → Nat → TileType)
    (vis : Finset (ℕ × ℕ)) (px py : ℚ) (tr : TrigOracle) (e : Entity)
    (r : Rng) : Entity × Rng :=
  let e1 : Entity := { e with spawnTimer := e.spawnTimer - 1 }
  if e1.spawnTimer ≤ 0 ∧ e1.visible = false then
    let sl := spawnLoop W H tile vis px py tr 20 r
    match sl.1 with
    | some pos =>
      let ar := sl.2.next
      let ang := tr.deg360 ar.1
      let vt := ar.2.randint 120 300
      let st := vt.2.randint 1200 2400
      ({ e1 with x := pos.1, y := pos.2, angle := ang, targetAngle := ang,
                 visible := true, visibilityTimer := (vt.1 : ℤ),
                 spawnTimer := (st.1 : ℤ), lastPlayerX := px, lastPlayerY := py,
                 moveTimer := 0 }, st.2)
    | none => ({ e1 with spawnTimer := 60 }, sl.2)
  else (e1, r)

/-- Lines 188–222 of `Entity.update` (the `if self.visible:` block):
decrement the visible-duration countdown, retarget every 60 move-ticks, ease
the heading, take one collision-checked step (re-targeting on a blocked
step), and drop back to hidden once the countdown is spent. -/
def entityMovePhase (W H : Nat) (tile : Nat → Nat → TileType)
    (tr : TrigOracle) (e : Entity) (r : Rng) : Entity × Rng :=
  if e.visible then
    let e1 : Entity := { e with visibilityTimer := e.visibilityTimer - 1,
                                moveTimer := e.moveTimer + 1 }
    let s2 : Entity × Rng :=
      if e1.moveTimer % 60 = 0 then
        let ar := r.next
        ({ e1 with targetAngle := tr.deg360 ar.1 }, ar.2)
      else (e1, r)
    let e2 := s2.1
    let diff0 := e2.targetAngle - e2.angle
    let diff :=
      if diff0 > 180 then diff0 - 360
      else if diff0 < -180 then diff0 + 360
      else diff0
    let e3 : Entity := { e2 with angle := e2.angle + diff * (1 / 10) }
    let d := tr.dirOfDeg e3.angle
    let nx := e3.x + d.1 * 1
    let ny := e3.y + d.2 * 1
    let s4 : Entity × Rng :=
      if entityCanMoveTo W H tile nx ny then ({ e3 with x := nx, y := ny }, s2.2)
      else
        let ar := s2.2.next
        ({ e3 with targetAngle := tr.deg360 ar.1 }, ar.2)
    if s4.1.visibilityTimer ≤ 0 then ({ s4.1 with visible := false }, s4.2)
    else (s4.1, s4.2)
  else (e, r)

/-- `Entity.update`: a no-op (forcing invisibility) outside Level 0;
otherwise the spawn phase followed — in the same call — by the movement
phase. -/
def entityUpdate (lt : LevelType) (W H : Nat) (tile : Nat → Nat → TileType)
    (vis : Finset (ℕ × ℕ)) (px py : ℚ) (tr : TrigOracle) (e : Entity)
    (r : Rng) : Entity × Rng :=
  if lt ≠ LevelType.level0 then ({ e with visible := false }, r)
  else
    let s1 := entitySpawnPhase W H tile vis px py tr e r
    entityMovePhase W H tile tr s1.1 s1.2

/-! ## C4: stamina bounds and sprint hysteresis -/

/-- C4 — For every tick, the player's stamina stays within
`[0, MAX_STAMINA]`; the sprint-allowance flag is cleared exactly when
start-of-tick stamina is `≤ 0` and restored exactly when it is back at
`MAX_STAMINA` (otherwise unchanged); and sprint is never active at the end
of a tick that began with zero stamina (regardless of whether sprint was
already active — the code is even stronger than the claim here). -/
theorem stamina_tick_sound (p : Player) (dx dy : ℚ) (W H : Nat)
    (tile : Nat → Nat → TileType) (sp : Bool)
    (h0 : 0 ≤ p.stamina) (h1 : p.stamina ≤ MAX_STAMINA) :
    (0 ≤ (p.move dx dy W H tile sp).stamina ∧
      (p.move dx dy W H tile sp).stamina ≤ MAX_STAMINA) ∧
    (p.move dx dy W H tile sp).canSprint =
      (if p.stamina ≤ 0 then false
       else if p.stamina ≥ MAX_STAMINA then true
       else p.canSprint) ∧
    (p.stamina ≤ 0 → (p.move dx dy W H tile sp).isSprinting = false) := by
  have aux : ∀ (s : ℚ) (b : Bool), 0 ≤ s → s ≤ MAX_STAMINA →
      0 ≤ (if b = true then max 0 (s - STAMINA_DRAIN_RATE)
           else if s < MAX_STAMINA then min MAX_STAMINA (s + STAMINA_REGEN_RATE) else s) ∧
      (if b = true then max 0 (s - STAMINA_DRAIN_RATE)
       else if s < MAX_STAMINA then min MAX_STAMINA (s + STAMINA_REGEN_RATE) else s) ≤
        MAX_STAMINA := by
    intro s b hs0 hs1
    have hs1' : s ≤ 100 := by simpa [MAX_STAMINA] using hs1
    split
    · refine ⟨le_max_left 0 _, max_le (by norm_num [MAX_STAMINA]) ?_⟩
      simp only [STAMINA_DRAIN_RATE, MAX_STAMINA]
      linarith
    · split
      · refine ⟨le_min (by norm_num [MAX_STAMINA]) ?_, min_le_left _ _⟩
        simp only [STAMINA_REGEN_RATE]
        linarith
      · exact ⟨hs0, hs1⟩
  unfold Player.move
  simp only []
  refine ⟨aux p.stamina _ h0 h1, by trivial, ?_⟩
  intro hz
  simp [if_pos hz]

/-- Witness for `stamina_tick_sound` at a concrete state. -/
theorem stamina_tick_sound_witness :
    (0 ≤ (50 : ℚ) ∧ (50 : ℚ) ≤ MAX_STAMINA) ∧
    ((0 ≤ (({ x := 30, y := 30, angle := 0, hasFlashlight := true,
              stamina := 50, isSprinting := false, canSprint := true } :
          Player).move 2 0 3 3 (fun _ _ => TileType.floor) true).stamina ∧
      (({ x := 30, y := 30, angle := 0, hasFlashlight := true,
          stamina := 50, isSprinting := false, canSprint := true } :
          Player).move 2 0 3 3 (fun _ _ => TileType.floor) true).stamina ≤ MAX_STAMINA) ∧
      (({ x := 30, y := 30, angle := 0, hasFlashlight := true,
          stamina := 50, isSprinting := false, canSprint := true } :
          Player).move 2 0 3 3 (fun _ _ => TileType.floor) true).canSprint =
        (if (50 : ℚ) ≤ 0 then false
         else if (50 : ℚ) ≥ MAX_STAMINA then true else true) ∧
      ((50 : ℚ) ≤ 0 →
        (({ x := 30, y := 30, angle := 0, hasFlashlight := true,
            stamina := 50, isSprinting := false, canSprint := true } :
            Player).move 2 0 3 3 (fun _ _ => TileType.floor) true).isSprinting = false)) :=
  ⟨⟨by norm_num, by norm_num [MAX_STAMINA]⟩,
    stamina_tick_sound _ 2 0 3 3 (fun _ _ => TileType.floor) true
      (by norm_num) (by norm_num [MAX_STAMINA])⟩

/-! ## C3: axis-separated movement and collision soundness -/

/-- The axis-separated update preserves the five-probe invariant: helper for
the C3 theorem. -/
theorem axis_step_sound (x y dx dy : ℚ) (W H : Nat)
    (tile : Nat → Nat → TileType)
    (h : ∀ c ∈ probePositions x y, probeOk W H tile c) :
    ∀ c ∈ probePositions
        (if canMoveTo W H tile (x + dx) y then x + dx else x)
        (if canMoveTo W H tile
            (if canMoveTo W H tile (x + dx) y then x + dx else x) (y + dy) then
          y + dy
         else y),
      probeOk W H tile c := by
  have hxy : ∀ c ∈ probePositions
      (if canMoveTo W H tile (x + dx) y then x + dx else x) y, probeOk W H tile c := by
    by_cases hc : canMoveTo W H tile (x + dx) y
    · rw [if_pos hc]; exact (canMoveTo_iff W H tile (x + dx) y).1 hc
    · rw [if_neg hc]; exact h
  by_cases hc2 : canMoveTo W H tile
      (if canMoveTo W H tile (x + dx) y then x + dx else x) (y + dy)
  · rw [if_pos hc2]
    exact (canMoveTo_iff W H tile _ (y + dy)).1 hc2
  · rw [if_neg hc2]; exact hxy

/-- C3 — Player movement is axis-separated: the scaled X delta is tested
against the *old* Y and applied first, then the scaled Y delta is tested
against the already-updated X; and collision is sound: if the position at
the start of the tick passes the five-probe test (all probes in-bounds,
non-wall, non-pool-edge), so does the position occupied after the move. -/
theorem player_move_axis_separated_sound (p : Player) (dx dy : ℚ) (W H : Nat)
    (tile : Nat → Nat → TileType) (sp : Bool)
    (h : ∀ c ∈ probePositions p.x p.y, probeOk W H tile c) :
    ((p.move dx dy W H tile sp).x =
      (if canMoveTo W H tile
          (p.x + dx * (if (p.move dx dy W H tile sp).isSprinting then SPRINT_MULTIPLIER else 1))
          p.y then
        p.x + dx * (if (p.move dx dy W H tile sp).isSprinting then SPRINT_MULTIPLIER else 1)
       else p.x)) ∧
    ((p.move dx dy W H tile sp).y =
      (if canMoveTo W H tile (p.move dx dy W H tile sp).x
          (p.y + dy * (if (p.move dx dy W H tile sp).isSprinting then SPRINT_MULTIPLIER else 1)) then
        p.y + dy * (if (p.move dx dy W H tile sp).isSprinting then SPRINT_MULTIPLIER else 1)
       else p.y)) ∧
    (∀ c ∈ probePositions (p.move dx dy W H tile sp).x (p.move dx dy W H tile sp).y,
      probeOk W H tile c) := by
  have e1 : (p.move dx dy W H tile sp).x =
      (if canMoveTo W H tile
          (p.x + dx * (if (p.move dx dy W H tile sp).isSprinting then SPRINT_MULTIPLIER else 1))
          p.y then
        p.x + dx * (if (p.move dx dy W H tile sp).isSprinting then SPRINT_MULTIPLIER else 1)
       else p.x) := rfl
  have e2 : (p.move dx dy W H tile sp).y =
      (if canMoveTo W H tile (p.move dx dy W H tile sp).x
          (p.y + dy * (if (p.move dx dy W H tile sp).isSprinting then SPRINT_MULTIPLIER else 1)) then
        p.y + dy * (if (p.move dx dy W H tile sp).isSprinting then SPRINT_MULTIPLIER else 1)
       else p.y) := rfl
  refine ⟨e1, e2, ?_⟩
  rw [e2, e1]
  exact axis_step_sound p.x p.y
    (dx * (if (p.move dx dy W H tile sp).isSprinting then SPRINT_MULTIPLIER else 1))
    (dy * (if (p.move dx dy W H tile sp).isSprinting then SPRINT_MULTIPLIER else 1))
    W H tile h

/-- Witness for `player_move_axis_separated_sound` at a concrete state. -/
theorem player_move_axis_separated_sound_witness :
    (∀ c ∈ probePositions (30 : ℚ) 30, probeOk 3 3 (fun _ _ => TileType.floor) c) ∧
    (∀ c ∈ probePositions
        (({ x := 30, y := 30, angle := 0, hasFlashlight := true, stamina := 50,
            isSprinting := false, canSprint := true } : Player).move 2 0 3 3
          (fun _ _ => TileType.floor) false).x
        (({ x := 30, y := 30, angle := 0, hasFlashlight := true, stamina := 50,
            isSprinting := false, canSprint := true } : Player).move 2 0 3 3
          (fun _ _ => TileType.floor) false).y,
      probeOk 3 3 (fun _ _ => TileType.floor) c) :=
  ⟨by norm_num [probePositions, probeOk, gridIdx]; decide,
    (player_move_axis_separated_sound
      { x := 30, y := 30, angle := 0, hasFlashlight := true, stamina := 50,
        isSprinting := false, canSprint := true } 2 0 3 3
      (fun _ _ => TileType.floor) false
      (by norm_num [probePositions, probeOk, gridIdx]; decide)).2.2⟩

/-! ## C6: the exploration-memory decay law -/

/-- `k` ticks of exploration-memory bookkeeping, the visible set of tick `i`
being `vs i`. -/
def exploredIter (vs : ℕ → Finset (ℕ × ℕ)) (m : ExploredMap) : ℕ → ExploredMap
  | 0 => m
  | k + 1 => exploredTick (exploredIter vs m k) (vs k)

theorem exploredTick_mem (m : ExploredMap) (vis : Finset (ℕ × ℕ)) (c : ℕ × ℕ)
    (h : c ∈ vis) : exploredTick m vis c = some 1 := by
  unfold exploredTick refreshExplored
  simp [h]

theorem exploredTick_not_mem (m : ExploredMap) (vis : Finset (ℕ × ℕ)) (c : ℕ × ℕ)
    (h : c ∉ vis) :
    exploredTick m vis c =
      match m c with
      | none => none
      | some v => if max 0 (v - FADE_RATE) ≤ 0 then none else some (max 0 (v - FADE_RATE)) := by
  unfold exploredTick refreshExplored updateFadeTimers
  simp only [if_neg h]

/-- C6 — A cell currently visible is stored at exactly `1.0`; a cell last
stored at full strength and not re-visible for `k` consecutive ticks is
stored at `1 − k·FADE_RATE` while `k < FADE_TIME = 1/FADE_RATE = 300`, and
is absent from the map for every `k ≥ 300` (so "stored strength" equals
`max (0, 1 − k·FADE_RATE)` with absence standing for `0`). -/
theorem fade_decay_law (vs : ℕ → Finset (ℕ × ℕ)) (m : ExploredMap) (c : ℕ × ℕ)
    (h0 : m c = some 1) (k : ℕ) (hk : ∀ i < k, c ∉ vs i) :
    (exploredIter vs m k c =
      if k < FADE_TIME then some (1 - (k : ℚ) * FADE_RATE) else none) ∧
    (∀ (m' : ExploredMap) (vis : Finset (ℕ × ℕ)), c ∈ vis →
      exploredTick m' vis c = some 1) := by
  refine ⟨?_, fun m' vis h => exploredTick_mem m' vis c h⟩
  induction k with
  | zero =>
    have hz : (0 : ℕ) < FADE_TIME := by norm_num [FADE_TIME]
    simp only [exploredIter, h0, if_pos hz]
    norm_num
  | succ k ih =>
    have hk' : ∀ i < k, c ∉ vs i := fun i hi => hk i (Nat.lt_succ_of_lt hi)
    have ihv := ih hk'
    have hnot : c ∉ vs k := hk k (Nat.lt_succ_self k)
    show exploredTick (exploredIter vs m k) (vs k) c = _
    rw [exploredTick_not_mem _ _ _ hnot]
    by_cases hklt : k < FADE_TIME
    · rw [ihv, if_pos hklt]
      simp only []
      have hkn : k < 300 := hklt
      have hle : (k : ℚ) + 1 ≤ 300 := by exact_mod_cast Nat.succ_le_of_lt hkn
      have hrate : FADE_RATE = 1 / 300 := by norm_num [FADE_RATE, FADE_TIME]
      have hmax : max 0 (1 - (k : ℚ) * FADE_RATE - FADE_RATE) =
          1 - ((k : ℚ) + 1) * FADE_RATE := by
        rw [max_eq_right]
        · ring
        · rw [hrate]; linarith
      rw [hmax]
      by_cases hk1 : k + 1 < FADE_TIME
      · have hk1n : k + 1 < 300 := hk1
        have hlt : (k : ℚ) + 1 < 300 := by exact_mod_cast hk1n
        have hpos : ¬(1 - ((k : ℚ) + 1) * FADE_RATE ≤ 0) := by
          rw [hrate]
          intro hcon
          nlinarith
        rw [if_neg hpos, if_pos hk1]
        norm_num
      · have hk1n : ¬(k + 1 < 300) := hk1
        have heq : (k : ℚ) + 1 = 300 := by
          have h1 : k + 1 = 300 := by omega
          exact_mod_cast h1
        have hz : 1 - ((k : ℚ) + 1) * FADE_RATE ≤ 0 := by
          rw [heq, hrate]
          norm_num
        rw [if_pos hz, if_neg hk1]
    · have hkn : ¬(k < 300) := hklt
      have hge : ¬(k + 1 < FADE_TIME) := by
        show ¬(k + 1 < 300)
        omega
      rw [ihv, if_neg hklt, if_neg hge]

/-- Witness for `fade_decay_law` at a concrete map and horizon. -/
theorem fade_decay_law_witness :
    ((fun c : ℕ × ℕ => if c = (0, 0) then some (1 : ℚ) else none) (0, 0) = some 1) ∧
    (∀ i < 2, (0, 0) ∉ (∅ : Finset (ℕ × ℕ))) ∧
    ((exploredIter (fun _ => ∅)
        (fun c : ℕ × ℕ => if c = (0, 0) then some (1 : ℚ) else none) 2 (0, 0) =
      if 2 < FADE_TIME then some (1 - (2 : ℚ) * FADE_RATE) else none) ∧
    (∀ (m' : ExploredMap) (vis : Finset (ℕ × ℕ)), (0, 0) ∈ vis →
      exploredTick m' vis (0, 0) = some 1)) :=
  ⟨by norm_num, by simp,
    fade_decay_law (fun _ => ∅) _ (0, 0) (by norm_num) 2 (by simp)⟩

/-! ## C8: the placement-attempt budget -/

theorem placeRoomBody_rooms_le (g : GenState) (rt : RoomType) (r : Rng) :
    (placeRoomBody g rt r).1.rooms.length ≤ g.rooms.length + 1 := by
  unfold placeRoomBody carveRoom
  dsimp only
  split
  · exact Nat.le_succ _
  · simp

theorem generatePoolRoomsLoop_halts :
    ∀ (fuel a : Nat) (g : GenState) (r : Rng), 150 ≤ a + fuel →
      ¬((generatePoolRoomsLoop fuel (g, a, r)).1.rooms.length < 15 ∧
        (generatePoolRoomsLoop fuel (g, a, r)).2.1 < 150) := by
  intro fuel
  induction fuel with
  | zero =>
    intro a g r ha
    simp only [generatePoolRoomsLoop]
    intro hcon
    omega
  | succ fuel ih =>
    intro a g r ha
    simp only [generatePoolRoomsLoop]
    split
    · exact ih (a + 1) _ _ (by omega)
    · next hguard => exact hguard

theorem generatePoolRoomsLoop_attempts_le :
    ∀ (fuel a : Nat) (g : GenState) (r : Rng), a ≤ 150 →
      (generatePoolRoomsLoop fuel (g, a, r)).2.1 ≤ 150 := by
  intro fuel
  induction fuel with
  | zero => intro a g r ha; simpa [generatePoolRoomsLoop] using ha
  | succ fuel ih =>
    intro a g r ha
    simp only [generatePoolRoomsLoop]
    split
    · next hguard => exact ih (a + 1) _ _ (by omega)
    · simpa using ha

theorem generatePoolRoomsLoop_rooms_le :
    ∀ (fuel a : Nat) (g : GenState) (r : Rng), g.rooms.length ≤ 15 →
      (generatePoolRoomsLoop fuel (g, a, r)).1.rooms.length ≤ 15 := by
  intro fuel
  induction fuel with
  | zero => intro a g r hg; simpa [generatePoolRoomsLoop] using hg
  | succ fuel ih =>
    intro a g r hg
    simp only [generatePoolRoomsLoop]
    split
    · next hguard =>
      refine ih (a + 1) _ _ ?_
      have h1 := placeRoomBody_rooms_le g
        (poolRoomTypeList.getD (r.choiceIdx poolRoomTypeList.length).1 RoomType.poolArea)
        (r.choiceIdx poolRoomTypeList.length).2
      omega
    · simpa using hg

theorem generateRoomsLoop_attempts_le :
    ∀ (fuel a : Nat) (g : GenState) (r : Rng), a ≤ 150 →
      (generateRoomsLoop fuel (g, a, r)).2.1 ≤ 150 := by
  intro fuel
  induction fuel with
  | zero => intro a g r ha; simpa [generateRoomsLoop] using ha
  | succ fuel ih =>
    intro a g r ha
    simp only [generateRoomsLoop]
    split
    · next hguard =>
      split
      · exact ih a _ _ ha
      · exact ih (a + 1) _ _ (by omega)
    · simpa using ha

theorem generateRoomsLoop_rooms_le :
    ∀ (fuel a : Nat) (g : GenState) (r : Rng), g.rooms.length ≤ 20 →
      (generateRoomsLoop fuel (g, a, r)).1.rooms.length ≤ 20 := by
  intro fuel
  induction fuel with
  | zero => intro a g r hg; simpa [generateRoomsLoop] using hg
  | succ fuel ih =>
    intro a g r hg
    simp only [generateRoomsLoop]
    split
    · next hguard =>
      split
      · exact ih a _ _ hg
      · refine ih (a + 1) _ _ ?_
        have h1 := placeRoomBody_rooms_le g
          (roomTypeList.getD (r.choiceIdx roomTypeList.length).1 RoomType.officeSpace)
          (r.choiceIdx roomTypeList.length).2
        omega
    · simpa using hg

/-- C8 (amended) — Both placement loops count at most 150 attempts and yield
at most the target number of rooms (20 standard / 15 alternate).  The
alternate-biome loop (`_generate_pool_rooms`) halts within 150 iterations:
after `150 + extra` iterations its guard has failed.  The corresponding
bound does **not** hold for `_generate_rooms`: a pool-type draw skips the
attempt counter (see the counterexample), so only the counted attempts are
bounded there, not the iterations. -/
theorem room_placement_budget (w h fuel : Nat) (r : Rng) :
    (¬((generatePoolRoomsLoop (150 + fuel) (initGen w h, 0, r)).1.rooms.length < 15 ∧
       (generatePoolRoomsLoop (150 + fuel) (initGen w h, 0, r)).2.1 < 150)) ∧
    (generatePoolRoomsLoop fuel (initGen w h, 0, r)).1.rooms.length ≤ 15 ∧
    (generatePoolRoomsLoop fuel (initGen w h, 0, r)).2.1 ≤ 150 ∧
    (generateRoomsLoop fuel (initGen w h, 0, r)).1.rooms.length ≤ 20 ∧
    (generateRoomsLoop fuel (initGen w h, 0, r)).2.1 ≤ 150 :=
  ⟨generatePoolRoomsLoop_halts (150 + fuel) 0 _ r (by omega),
   generatePoolRoomsLoop_rooms_le fuel 0 _ r (by simp [initGen]),
   generatePoolRoomsLoop_attempts_le fuel 0 _ r (by omega),
   generateRoomsLoop_rooms_le fuel 0 _ r (by simp [initGen]),
   generateRoomsLoop_attempts_le fuel 0 _ r (by omega)⟩

/-- C8 counterexample — With the random stream that always draws the
pool-area room type, `_generate_rooms` runs `continue` before
`attempts += 1` on every iteration: after 151 iterations (more than the
150-attempt budget could ever admit) the loop is still running, with zero
counted attempts and no room placed, so the placement loop does *not*
terminate after at most 150 placement attempts for every random stream. -/
theorem room_placement_budget_counterexample :
    (generateRoomsLoop 151 (initGen 288 162, 0, ⟨fun _ => 12, 0⟩)).1.rooms = [] ∧
    (generateRoomsLoop 151 (initGen 288 162, 0, ⟨fun _ => 12, 0⟩)).2.1 = 0 ∧
    ((generateRoomsLoop 151 (initGen 288 162, 0, ⟨fun _ => 12, 0⟩)).1.rooms.length < 20 ∧
     (generateRoomsLoop 151 (initGen 288 162, 0, ⟨fun _ => 12, 0⟩)).2.1 < 150) := by
  have key : ∀ (n k : Nat),
      generateRoomsLoop n (initGen 288 162, 0, ⟨fun _ => 12, k⟩) =
        (initGen 288 162, 0, ⟨fun _ => 12, k + n⟩) := by
    intro n
    induction n with
    | zero => intro k; simp [generateRoomsLoop]
    | succ n ih =>
      intro k
      have hguard : (initGen 288 162).rooms.length < 20 ∧ 0 < 150 := by
        simp [initGen]
      rw [generateRoomsLoop, if_pos hguard]
      have hpool : isPoolType (roomTypeList.getD
          ((⟨fun _ => 12, k⟩ : Rng).choiceIdx roomTypeList.length).1
          RoomType.officeSpace) = true := rfl
      rw [if_pos hpool]
      have : ((⟨fun _ => 12, k⟩ : Rng).choiceIdx roomTypeList.length).2 =
          (⟨fun _ => 12, k + 1⟩ : Rng) := rfl
      rw [this, ih]
      simp [Nat.add_assoc, Nat.add_comm 1 n]
  rw [key 151 0]
  refine ⟨rfl, rfl, by simp [initGen], by decide⟩

/-! ## C9: entity countdown bookkeeping -/

/-- Characterization of one `Entity.update` tick in Level 0 for a currently
VISIBLE entity: the spawn countdown is decremented (the unconditional
`self.spawn_timer -= 1` runs every tick), the visible-duration countdown is
decremented, and the entity stays visible exactly while the decremented
duration countdown is still positive. -/
theorem entityUpdate_visible_characterization (W H : Nat)
    (tile : Nat → Nat → TileType) (vis : Finset (ℕ × ℕ)) (px py : ℚ)
    (tr : TrigOracle) (e : Entity) (r : Rng) (hvis : e.visible = true) :
    (entityUpdate LevelType.level0 W H tile vis px py tr e r).1.spawnTimer =
      e.spawnTimer - 1 ∧
    (entityUpdate LevelType.level0 W H tile vis px py tr e r).1.visibilityTimer =
      e.visibilityTimer - 1 ∧
    (entityUpdate LevelType.level0 W H tile vis px py tr e r).1.visible =
      !decide (e.visibilityTimer - 1 ≤ 0) := by
  unfold entityUpdate
  rw [if_neg (by simp)]
  unfold entitySpawnPhase
  dsimp only
  rw [if_neg (by simp [hvis])]
  unfold entityMovePhase
  dsimp only
  rw [if_pos hvis]
  repeat' split
  all_goals simp_all

/-- C9 (amended) — In the standard biome the spawn countdown decrements on
*every* tick, including ticks on which the entity is VISIBLE (not only while
HIDDEN); when the visible-duration countdown reaches zero the entity
transitions back to HIDDEN instantly; but the next spawn countdown is *not*
drawn at that transition — the spawn countdown simply continues from the
value drawn at the HIDDEN→VISIBLE transition. -/
theorem entity_spawn_countdown_every_tick (W H : Nat)
    (tile : Nat → Nat → TileType) (vis : Finset (ℕ × ℕ)) (px py : ℚ)
    (tr : TrigOracle) (e : Entity) (r : Rng) (hvis : e.visible = true) :
    (entityUpdate LevelType.level0 W H tile vis px py tr e r).1.spawnTimer =
      e.spawnTimer - 1 ∧
    ((e.visibilityTimer - 1 ≤ 0 →
      (entityUpdate LevelType.level0 W H tile vis px py tr e r).1.visible = false) ∧
     (0 < e.visibilityTimer - 1 →
      (entityUpdate LevelType.level0 W H tile vis px py tr e r).1.visible = true)) := by
  obtain ⟨h1, _, h3⟩ :=
    entityUpdate_visible_characterization W H tile vis px py tr e r hvis
  refine ⟨h1, ?_, ?_⟩
  · intro hz
    rw [h3]
    simp [hz]
  · intro hp
    rw [h3]
    simp
    omega

/-- Witness for `entity_spawn_countdown_every_tick` at a concrete state. -/
theorem entity_spawn_countdown_every_tick_witness :
    (({ x := 30, y := 30, visible := true, visibilityTimer := 1,
        spawnTimer := 1000, angle := 0, lastPlayerX := 0, lastPlayerY := 0,
        moveTimer := 0, targetAngle := 0 } : Entity).visible = true) ∧
    ((entityUpdate LevelType.level0 3 3 (fun _ _ => TileType.floor) ∅ 30 30
        ⟨fun _ => (1, 0), fun _ => 0, fun _ => (1, 0)⟩
        { x := 30, y := 30, visible := true, visibilityTimer := 1,
          spawnTimer := 1000, angle := 0, lastPlayerX := 0, lastPlayerY := 0,
          moveTimer := 0, targetAngle := 0 } ⟨fun _ => 0, 0⟩).1.spawnTimer =
      1000 - 1 ∧
    (((1 : ℤ) - 1 ≤ 0 →
      (entityUpdate LevelType.level0 3 3 (fun _ _ => TileType.floor) ∅ 30 30
        ⟨fun _ => (1, 0), fun _ => 0, fun _ => (1, 0)⟩
        { x := 30, y := 30, visible := true, visibilityTimer := 1,
          spawnTimer := 1000, angle := 0, lastPlayerX := 0, lastPlayerY := 0,
          moveTimer := 0, targetAngle := 0 } ⟨fun _ => 0, 0⟩).1.visible = false) ∧
     ((0 : ℤ) < 1 - 1 →
      (entityUpdate LevelType.level0 3 3 (fun _ _ => TileType.floor) ∅ 30 30
        ⟨fun _ => (1, 0), fun _ => 0, fun _ => (1, 0)⟩
        { x := 30, y := 30, visible := true, visibilityTimer := 1,
          spawnTimer := 1000, angle := 0, lastPlayerX := 0, lastPlayerY := 0,
          moveTimer := 0, targetAngle := 0 } ⟨fun _ => 0, 0⟩).1.visible = true))) :=
  ⟨rfl, entity_spawn_countdown_every_tick 3 3 (fun _ _ => TileType.floor) ∅ 30 30
    ⟨fun _ => (1, 0), fun _ => 0, fun _ => (1, 0)⟩
    { x := 30, y := 30, visible := true, visibilityTimer := 1,
      spawnTimer := 1000, angle := 0, lastPlayerX := 0, lastPlayerY := 0,
      moveTimer := 0, targetAngle := 0 } ⟨fun _ => 0, 0⟩ rfl⟩

/-- C9 counterexample — A VISIBLE entity with `spawn_timer = 1000` and
`visibility_timer = 1` has, after one `Entity.update` tick, a spawn
countdown of `999`: the spawn countdown was decremented on a tick on which
the entity was VISIBLE (refuting "decrements each tick only while HIDDEN"),
and at the very tick the entity transitions back to HIDDEN its spawn
countdown is `999 ∉ [1200, 2400]`, so no fresh short-range spawn countdown
was drawn at that transition. -/
theorem entity_spawn_countdown_counterexample :
    (({ x := 30, y := 30, visible := true, visibilityTimer := 1,
        spawnTimer := 1000, angle := 0, lastPlayerX := 0, lastPlayerY := 0,
        moveTimer := 0, targetAngle := 0 } : Entity).visible = true) ∧
    ((entityUpdate LevelType.level0 3 3 (fun _ _ => TileType.floor) ∅ 30 30
        ⟨fun _ => (1, 0), fun _ => 0, fun _ => (1, 0)⟩
        { x := 30, y := 30, visible := true, visibilityTimer := 1,
          spawnTimer := 1000, angle := 0, lastPlayerX := 0, lastPlayerY := 0,
          moveTimer := 0, targetAngle := 0 } ⟨fun _ => 0, 0⟩).1.spawnTimer = 999) ∧
    ((entityUpdate LevelType.level0 3 3 (fun _ _ => TileType.floor) ∅ 30 30
        ⟨fun _ => (1, 0), fun _ => 0, fun _ => (1, 0)⟩
        { x := 30, y := 30, visible := true, visibilityTimer := 1,
          spawnTimer := 1000, angle := 0, lastPlayerX := 0, lastPlayerY := 0,
          moveTimer := 0, targetAngle := 0 } ⟨fun _ => 0, 0⟩).1.visible = false) ∧
    ¬(1200 ≤ (entityUpdate LevelType.level0 3 3 (fun _ _ => TileType.floor) ∅ 30 30
        ⟨fun _ => (1, 0), fun _ => 0, fun _ => (1, 0)⟩
        { x := 30, y := 30, visible := true, visibilityTimer := 1,
          spawnTimer := 1000, angle := 0, lastPlayerX := 0, lastPlayerY := 0,
          moveTimer := 0, targetAngle := 0 } ⟨fun _ => 0, 0⟩).1.spawnTimer ∧
      (entityUpdate LevelType.level0 3 3 (fun _ _ => TileType.floor) ∅ 30 30
        ⟨fun _ => (1, 0), fun _ => 0, fun _ => (1, 0)⟩
        { x := 30, y := 30, visible := true, visibilityTimer := 1,
          spawnTimer := 1000, angle := 0, lastPlayerX := 0, lastPlayerY := 0,
          moveTimer := 0, targetAngle := 0 } ⟨fun _ => 0, 0⟩).1.spawnTimer ≤ 2400) := by
  obtain ⟨h1, h2, h3⟩ := entityUpdate_visible_characterization 3 3
    (fun _ _ => TileType.floor) ∅ 30 30
    ⟨fun _ => (1, 0), fun _ => 0, fun _ => (1, 0)⟩
    { x := 30, y := 30, visible := true, visibilityTimer := 1,
      spawnTimer := 1000, angle := 0, lastPlayerX := 0, lastPlayerY := 0,
      moveTimer := 0, targetAngle := 0 } ⟨fun _ => 0, 0⟩ rfl
  refine ⟨rfl, ?_, ?_, ?_⟩
  · rw [h1]; decide
  · rw [h3]; decide
  · rw [h1]; decide

/-! ## C7: entity spawn exclusion -/

/-- A successful spawn attempt satisfies the acceptance guard: the candidate
cell is in-bounds, `FLOOR`, and not in the visible set. -/
theorem spawnLoop_sound (W H : Nat) (tile : Nat → Nat → TileType)
    (vis : Finset (ℕ × ℕ)) (px py : ℚ) (tr : TrigOracle) :
    ∀ (n : Nat) (r : Rng) (pos : ℚ × ℚ),
      (spawnLoop W H tile vis px py tr n r).1 = some pos →
      0 ≤ gridIdx pos.1 ∧ gridIdx pos.1 < (W : ℤ) ∧
      0 ≤ gridIdx pos.2 ∧ gridIdx pos.2 < (H : ℤ) ∧
      tile (gridIdx pos.2).toNat (gridIdx pos.1).toNat = TileType.floor ∧
      ((gridIdx pos.1).toNat, (gridIdx pos.2).toNat) ∉ vis := by
  intro n
  induction n with
  | zero => intro r pos h; simp [spawnLoop] at h
  | succ n ih =>
    intro r pos h
    rw [spawnLoop] at h
    split at h
    · next hcond =>
      split at h
      · exact ih _ pos h
      · next hmem =>
        simp only [Prod.mk.injEq, Option.some.injEq] at h
        obtain ⟨h1, h2, h3, h4, h5⟩ := hcond
        subst h
        exact ⟨h1, h2, h3, h4, h5, hmem⟩
    · exact ih _ pos h

/-- C7 (amended) — If the spawn *phase* of `Entity.update` transitions the
entity from HIDDEN to VISIBLE, then the accepted spawn position's grid cell
is a `FLOOR` tile and is not in that tick's visible set.  (The claim as
originally stated — about the entity's position at the *end* of the tick —
is false, because the same `update` call then moves the freshly spawned
entity one step, which can carry it into a visible cell; see the
counterexample.) -/
theorem entity_spawn_exclusion (W H : Nat) (tile : Nat → Nat → TileType)
    (vis : Finset (ℕ × ℕ)) (px py : ℚ) (tr : TrigOracle) (e : Entity) (r : Rng)
    (hhid : e.visible = false)
    (hspawned : (entitySpawnPhase W H tile vis px py tr e r).1.visible = true) :
    tile (gridIdx (entitySpawnPhase W H tile vis px py tr e r).1.y).toNat
        (gridIdx (entitySpawnPhase W H tile vis px py tr e r).1.x).toNat =
      TileType.floor ∧
    ((gridIdx (entitySpawnPhase W H tile vis px py tr e r).1.x).toNat,
     (gridIdx (entitySpawnPhase W H tile vis px py tr e r).1.y).toNat) ∉ vis := by
  unfold entitySpawnPhase at hspawned ⊢
  dsimp only at hspawned ⊢
  by_cases hg : (e.spawnTimer - 1 ≤ 0 ∧ e.visible = false)
  · rw [if_pos hg] at hspawned ⊢
    rcases hsl : (spawnLoop W H tile vis px py tr 20 r).1 with _ | pos
    · rw [hsl] at hspawned
      simp [hhid] at hspawned
    · dsimp only
      have hsound := spawnLoop_sound W H tile vis px py tr 20 r pos hsl
      exact ⟨hsound.2.2.2.2.1, hsound.2.2.2.2.2⟩
  · rw [if_neg hg] at hspawned
    dsimp only at hspawned
    rw [hhid] at hspawned
    exact absurd hspawned (by simp)

/-- The all-floor grid used by the entity scenarios. -/
def allFloor : ℕ → ℕ → TileType := fun _ _ => TileType.floor

/-- The visible set of the C7 scenario: only cell `(13, 5)` is visible. -/
def c7Vis : Finset (ℕ × ℕ) := {(13, 5)}

/-- The C7 trig oracle: heading east (`cos = 1, sin = 0` — the exact values
of the real `cos`/`sin` at angle `0`, which `random.uniform` can return). -/
def c7Oracle : TrigOracle := ⟨fun _ => (1, 0), fun _ => 0, fun _ => (1, 0)⟩

/-- The C7 random stream: the spawn-distance draw yields `120 + 5 % 61 = 125`
and every other draw yields its range minimum. -/
def c7Rng : Rng := ⟨fun k => if k = 0 then 5 else 0, 0⟩

/-- The C7 entity: hidden, spawn countdown about to expire. -/
def c7Entity : Entity := ⟨0, 0, false, 0, 1, 0, 0, 0, 0, 0⟩

theorem c7_spawnLoop_eval :
    spawnLoop 20 12 allFloor c7Vis 134 110 c7Oracle 20 c7Rng =
      (some (259, 110), ⟨c7Rng.seq, 2⟩) := by
  show spawnLoop 20 12 allFloor c7Vis 134 110 c7Oracle (19 + 1) c7Rng = _
  rw [spawnLoop]
  norm_num [Rng.randint, Rng.next, c7Rng, c7Oracle, c7Vis, allFloor, gridIdx]
  intro h1 _
  exact absurd h1 (by decide)

theorem c7_spawnPhase_eval :
    entitySpawnPhase 20 12 allFloor c7Vis 134 110 c7Oracle c7Entity c7Rng =
      (⟨259, 110, true, 120, 1200, 0, 134, 110, 0, 0⟩, ⟨c7Rng.seq, 5⟩) := by
  unfold entitySpawnPhase
  dsimp only
  rw [if_pos (by constructor <;> decide)]
  rw [c7_spawnLoop_eval]
  dsimp only
  norm_num [Rng.next, Rng.randint, c7Rng, c7Oracle]

/-- Witness for `entity_spawn_exclusion` at the concrete spawn scenario. -/
theorem entity_spawn_exclusion_witness :
    (c7Entity.visible = false) ∧
    ((entitySpawnPhase 20 12 allFloor c7Vis 134 110 c7Oracle c7Entity c7Rng).1.visible = true) ∧
    (allFloor
        (gridIdx (entitySpawnPhase 20 12 allFloor c7Vis 134 110 c7Oracle c7Entity c7Rng).1.y).toNat
        (gridIdx (entitySpawnPhase 20 12 allFloor c7Vis 134 110 c7Oracle c7Entity c7Rng).1.x).toNat =
      TileType.floor ∧
    ((gridIdx (entitySpawnPhase 20 12 allFloor c7Vis 134 110 c7Oracle c7Entity c7Rng).1.x).toNat,
     (gridIdx (entitySpawnPhase 20 12 allFloor c7Vis 134 110 c7Oracle c7Entity c7Rng).1.y).toNat) ∉
      c7Vis) :=
  ⟨rfl, by rw [c7_spawnPhase_eval],
    entity_spawn_exclusion 20 12 allFloor c7Vis 134 110 c7Oracle c7Entity c7Rng rfl
      (by rw [c7_spawnPhase_eval])⟩

theorem c7_update_eval :
    (entityUpdate LevelType.level0 20 12 allFloor c7Vis 134 110 c7Oracle
        c7Entity c7Rng).1.x = 260 ∧
    (entityUpdate LevelType.level0 20 12 allFloor c7Vis 134 110 c7Oracle
        c7Entity c7Rng).1.y = 110 ∧
    (entityUpdate LevelType.level0 20 12 allFloor c7Vis 134 110 c7Oracle
        c7Entity c7Rng).1.visible = true := by
  unfold entityUpdate
  rw [if_neg (by simp)]
  dsimp only
  rw [c7_spawnPhase_eval]
  unfold entityMovePhase
  dsimp only
  rw [if_pos rfl]
  have hcan : entityCanMoveTo 20 12 allFloor 260 110 = true := by
    norm_num [entityCanMoveTo, canMoveTo, probePositions, gridIdx, allFloor]
    decide
  norm_num [Rng.next, c7Oracle, hcan]

/-- C7 counterexample — In the very `Entity.update` call in which the entity
transitions HIDDEN→VISIBLE (spawning at `(259, 110)`, cell `(12, 5)`, which
is a floor cell outside the visible set), the movement half of the same call
then steps the entity east to `(260, 110)`, whose grid cell `(13, 5)` *is*
in that tick's visible-tile set: the entity's end-of-tick position on its
transition tick is a member of the visible set, refuting the claim as
stated. -/
theorem entity_spawn_exclusion_counterexample :
    (c7Entity.visible = false) ∧
    ((entityUpdate LevelType.level0 20 12 allFloor c7Vis 134 110 c7Oracle
        c7Entity c7Rng).1.visible = true) ∧
    ((gridIdx (entityUpdate LevelType.level0 20 12 allFloor c7Vis 134 110 c7Oracle
        c7Entity c7Rng).1.x).toNat,
     (gridIdx (entityUpdate LevelType.level0 20 12 allFloor c7Vis 134 110 c7Oracle
        c7Entity c7Rng).1.y).toNat) ∈ c7Vis := by
  obtain ⟨hx, hy, hv⟩ := c7_update_eval
  refine ⟨rfl, hv, ?_⟩
  rw [hx, hy]
  have h1 : gridIdx (260 : ℚ) = 13 := by norm_num [gridIdx]
  have h2 : gridIdx (110 : ℚ) = 5 := by norm_num [gridIdx]
  rw [h1, h2]
  decide

/-! ## C5: the visible set is the union of its two sources -/

/-- The lit-room contribution of `_update_visibility`, in isolation. -/
def litRoomCells (W H : Nat) (rooms : List Room) (px py : ℚ) : Finset (ℕ × ℕ) :=
  match getCurrentRoom rooms px py with
  | some room => if room.isLit then roomVisibleCells W H room else ∅
  | none => ∅

/-- The flashlight contribution of `_update_visibility`, in isolation. -/
def flashlightCells (W H : Nat) (tile : Nat → Nat → TileType) (p : Player)
    (trig : ℤ → ℚ × ℚ) : Finset (ℕ × ℕ) :=
  calculateFlashlight W H tile p trig ∅

theorem castRayAux_acc (W H : Nat) (tile : Nat → Nat → TileType)
    (dx dy maxDist : ℚ) :
    ∀ (fuel : Nat) (x y dist : ℚ) (acc : Finset (ℕ × ℕ)),
      castRayAux W H tile dx dy maxDist fuel x y dist acc =
        acc ∪ castRayAux W H tile dx dy maxDist fuel x y dist ∅ := by
  intro fuel
  induction fuel with
  | zero => intro x y dist acc; simp [castRayAux]
  | succ fuel ih =>
    intro x y dist acc
    rw [castRayAux, castRayAux]
    by_cases hd : dist < maxDist
    · rw [if_pos hd, if_pos hd]
      dsimp only
      by_cases hb : 0 ≤ pyTrunc x ∧ pyTrunc x < (W : ℤ) ∧ 0 ≤ pyTrunc y ∧ pyTrunc y < (H : ℤ)
      · rw [if_pos hb, if_pos hb]
        by_cases hw : tile (pyTrunc y).toNat (pyTrunc x).toNat = TileType.wall
        · rw [if_pos hw, if_pos hw]
          ext c
          simp [or_comm]
        · rw [if_neg hw, if_neg hw]
          rw [ih _ _ _ (insert ((pyTrunc x).toNat, (pyTrunc y).toNat) acc),
            ih _ _ _ (insert ((pyTrunc x).toNat, (pyTrunc y).toNat) ∅)]
          ext c
          simp only [Finset.mem_union, Finset.mem_insert, Finset.not_mem_empty]
          tauto
      · rw [if_neg hb, if_neg hb]
        simp
    · rw [if_neg hd, if_neg hd]
      simp

theorem castRay_acc (W H : Nat) (tile : Nat → Nat → TileType)
    (sx sy dx dy maxDist : ℚ) (acc : Finset (ℕ × ℕ)) :
    castRay W H tile sx sy dx dy maxDist acc =
      acc ∪ castRay W H tile sx sy dx dy maxDist ∅ :=
  castRayAux_acc W H tile dx dy maxDist _ sx sy 0 acc

theorem flashlight_fold_acc (W H : Nat) (tile : Nat → Nat → TileType)
    (sx sy maxDist : ℚ) (trig : ℤ → ℚ × ℚ) :
    ∀ (l : List ℤ) (acc : Finset (ℕ × ℕ)),
      l.foldl (fun s a => castRay W H tile sx sy (trig a).1 (trig a).2 maxDist s) acc =
        acc ∪ l.foldl (fun s a => castRay W H tile sx sy (trig a).1 (trig a).2 maxDist s) ∅ := by
  intro l
  induction l with
  | nil => intro acc; simp
  | cons a l ih =>
    intro acc
    rw [List.foldl_cons, List.foldl_cons]
    rw [ih (castRay W H tile sx sy (trig a).1 (trig a).2 maxDist acc),
      ih (castRay W H tile sx sy (trig a).1 (trig a).2 maxDist ∅)]
    rw [castRay_acc W H tile sx sy (trig a).1 (trig a).2 maxDist acc]
    rw [Finset.union_assoc]

/-- C5 — The visible-tile set computed by `_update_visibility` is exactly the
union of its two independent sources: the lit current room's in-bounds
rectangle cells and the cells marked by the flashlight ray march.  Neither
source suppresses or limits the other.  The second conjunct spells out the
lit-room source: a cell is contributed iff it is in-bounds and inside the
room rectangle. -/
theorem visibility_is_union (W H : Nat) (tile : Nat → Nat → TileType)
    (rooms : List Room) (p : Player) (trig : ℤ → ℚ × ℚ) :
    updateVisibility W H tile rooms p trig =
      litRoomCells W H rooms p.x p.y ∪ flashlightCells W H tile p trig ∧
    (∀ (room : Room) (c : ℕ × ℕ), c ∈ roomVisibleCells W H room ↔
      (c.1 < W ∧ c.2 < H ∧ room.x ≤ c.1 ∧ c.1 < room.x + room.width ∧
       room.y ≤ c.2 ∧ c.2 < room.y + room.height)) := by
  constructor
  · unfold updateVisibility litRoomCells flashlightCells calculateFlashlight
    dsimp only
    by_cases hf : p.hasFlashlight = true
    · rw [if_pos hf, if_pos hf]
      rw [flashlight_fold_acc]
      congr 1
      rcases getCurrentRoom rooms p.x p.y with _ | room
      · simp
      · dsimp only
        by_cases hl : room.isLit = true
        · rw [if_pos hl, if_pos hl]
          simp
        · rw [if_neg hl, if_neg hl]
    · rw [if_neg hf, if_neg hf]
      rw [Finset.union_empty]
      rcases getCurrentRoom rooms p.x p.y with _ | room
      · simp
      · dsimp only
        by_cases hl : room.isLit = true
        · rw [if_pos hl, if_pos hl]
          simp
        · rw [if_neg hl, if_neg hl]
  · intro room c
    unfold roomVisibleCells
    simp only [Finset.mem_filter, Finset.mem_product, Finset.mem_range]
    tauto

/-! ## C10: the tile under the player never fades -/

theorem pyTrunc_eq_ceil_of_nonpos (q : ℚ) (h : q ≤ 0) : pyTrunc q = ⌈q⌉ := by
  have hneg : pyTrunc q = -pyTrunc (-q) := by
    show q.num.tdiv (q.den : ℤ) = -((-q).num.tdiv ((-q).den : ℤ))
    have h1 : (-q).num = -q.num := rfl
    have h2 : (-q).den = q.den := rfl
    rw [h1, h2, Int.neg_tdiv, neg_neg]
  have hnn : (0 : ℚ) ≤ -q := by linarith
  rw [hneg, pyTrunc_eq_floor_of_nonneg (-q) hnn, Int.floor_neg, neg_neg]

theorem pyTrunc_mono {a b : ℚ} (h : a ≤ b) : pyTrunc a ≤ pyTrunc b := by
  by_cases ha : 0 ≤ a
  · rw [pyTrunc_eq_floor_of_nonneg a ha,
      pyTrunc_eq_floor_of_nonneg b (le_trans ha h)]
    exact Int.floor_le_floor h
  · push_neg at ha
    by_cases hb : 0 ≤ b
    · rw [pyTrunc_eq_ceil_of_nonpos a (le_of_lt ha),
        pyTrunc_eq_floor_of_nonneg b hb]
      have h1 : ⌈a⌉ ≤ 0 := by
        rw [Int.ceil_le]
        exact_mod_cast le_of_lt ha
      have h2 : (0 : ℤ) ≤ ⌊b⌋ := by
        rw [Int.le_floor]
        exact_mod_cast hb
      omega
    · push_neg at hb
      rw [pyTrunc_eq_ceil_of_nonpos a (le_of_lt ha),
        pyTrunc_eq_ceil_of_nonpos b (le_of_lt hb)]
      exact Int.ceil_le_ceil h

theorem castRayAux_subset (W H : Nat) (tile : Nat → Nat → TileType)
    (dx dy maxDist : ℚ) (fuel : Nat) (x y dist : ℚ) (acc : Finset (ℕ × ℕ)) :
    acc ⊆ castRayAux W H tile dx dy maxDist fuel x y dist acc := by
  rw [castRayAux_acc]
  exact Finset.subset_union_left

theorem flashlight_fold_subset (W H : Nat) (tile : Nat → Nat → TileType)
    (sx sy maxDist : ℚ) (trig : ℤ → ℚ × ℚ) (l : List ℤ) (acc : Finset (ℕ × ℕ)) :
    acc ⊆ l.foldl (fun s a => castRay W H tile sx sy (trig a).1 (trig a).2 maxDist s) acc := by
  rw [flashlight_fold_acc]
  exact Finset.subset_union_left

theorem angleList_cons (startA stopA : ℤ) (n : ℕ)
    (hn : ((stopA - startA + 1) / 2).toNat = n + 1) :
    angleList startA stopA =
      (startA + 2 * Int.ofNat 0) ::
        (List.range n).map (fun i => startA + 2 * Int.ofNat (Nat.succ i)) := by
  unfold angleList
  rw [hn, List.range_succ_eq_map, List.map_cons, List.map_map]
  rfl

/-- The first marching step of `_cast_ray` marks the starting cell whenever
it is in-bounds, before any wall test can end the ray. -/
theorem castRay_marks_start (W H : Nat) (tile : Nat → Nat → TileType)
    (sx sy dx dy maxDist : ℚ) (acc : Finset (ℕ × ℕ)) (hpos : 0 < maxDist)
    (hb : 0 ≤ pyTrunc sx ∧ pyTrunc sx < (W : ℤ) ∧ 0 ≤ pyTrunc sy ∧ pyTrunc sy < (H : ℤ)) :
    ((pyTrunc sx).toNat, (pyTrunc sy).toNat) ∈
      castRay W H tile sx sy dx dy maxDist acc := by
  rw [castRay, castRayAux]
  rw [if_pos hpos, if_pos hb]
  dsimp only
  by_cases hw : tile (pyTrunc sy).toNat (pyTrunc sx).toNat = TileType.wall
  · rw [if_pos hw]
    exact Finset.mem_insert_self _ _
  · rw [if_neg hw]
    refine castRayAux_subset W H tile dx dy maxDist _ _ _ _ _ ?_
    exact Finset.mem_insert_self _ _

/-- C10 — On every tick on which the player holds the flashlight and the
player's grid cell is in-bounds, that cell is in the visible set computed by
`_update_visibility` (each cast ray marks its starting cell before testing
for a wall, and at least one ray is always cast), and consequently the
exploration-memory entry for that cell is exactly `1.0` at the end of the
tick — the tile under the player never fades. -/
theorem player_cell_always_visible (W H : Nat) (tile : Nat → Nat → TileType)
    (rooms : List Room) (p : Player) (trig : ℤ → ℚ × ℚ) (m : ExploredMap)
    (hf : p.hasFlashlight = true)
    (hx0 : 0 ≤ gridIdx p.x) (hxW : gridIdx p.x < (W : ℤ))
    (hy0 : 0 ≤ gridIdx p.y) (hyH : gridIdx p.y < (H : ℤ)) :
    ((gridIdx p.x).toNat, (gridIdx p.y).toNat) ∈
      updateVisibility W H tile rooms p trig ∧
    exploredTick m (updateVisibility W H tile rooms p trig)
      ((gridIdx p.x).toNat, (gridIdx p.y).toNat) = some 1 := by
  have hqx : (0 : ℚ) ≤ p.x / 20 := by
    have h1 : (0 : ℚ) ≤ ((gridIdx p.x : ℤ) : ℚ) := by exact_mod_cast hx0
    have h2 : ((gridIdx p.x : ℤ) : ℚ) ≤ p.x / 20 := Int.floor_le _
    linarith
  have hqy : (0 : ℚ) ≤ p.y / 20 := by
    have h1 : (0 : ℚ) ≤ ((gridIdx p.y : ℤ) : ℚ) := by exact_mod_cast hy0
    have h2 : ((gridIdx p.y : ℤ) : ℚ) ≤ p.y / 20 := Int.floor_le _
    linarith
  have htx : pyTrunc (p.x / 20) = gridIdx p.x := pyTrunc_eq_floor_of_nonneg _ hqx
  have hty : pyTrunc (p.y / 20) = gridIdx p.y := pyTrunc_eq_floor_of_nonneg _ hqy
  have hmem : ((gridIdx p.x).toNat, (gridIdx p.y).toNat) ∈
      updateVisibility W H tile rooms p trig := by
    unfold updateVisibility calculateFlashlight
    dsimp only
    rw [if_pos hf]
    have hlen : 1 ≤ ((pyTrunc (p.angle + 60 / 2) + 1 - pyTrunc (p.angle - 60 / 2) + 1) / 2).toNat := by
      have hmono : pyTrunc (p.angle - 60 / 2) ≤ pyTrunc (p.angle + 60 / 2) :=
        pyTrunc_mono (by linarith)
      have h2 : (2 : ℤ) ≤ pyTrunc (p.angle + 60 / 2) + 1 - pyTrunc (p.angle - 60 / 2) + 1 := by
        omega
      have h3 : (1 : ℤ) ≤ (pyTrunc (p.angle + 60 / 2) + 1 - pyTrunc (p.angle - 60 / 2) + 1) / 2 := by
        omega
      omega
    obtain ⟨n, hn⟩ : ∃ n, ((pyTrunc (p.angle + 60 / 2) + 1 - pyTrunc (p.angle - 60 / 2) + 1) / 2).toNat
        = n + 1 := by
      refine ⟨((pyTrunc (p.angle + 60 / 2) + 1 - pyTrunc (p.angle - 60 / 2) + 1) / 2).toNat - 1, ?_⟩
      omega
    rw [angleList_cons _ _ n hn]
    rw [List.foldl_cons]
    refine flashlight_fold_subset W H tile (p.x / 20) (p.y / 20) _ trig _ _ ?_
    rw [← htx, ← hty]
    exact castRay_marks_start W H tile (p.x / 20) (p.y / 20) _ _ _ _ (by norm_num)
      ⟨by rw [htx]; exact hx0, by rw [htx]; exact hxW,
       by rw [hty]; exact hy0, by rw [hty]; exact hyH⟩
  exact ⟨hmem, exploredTick_mem m _ _ hmem⟩

/-- Witness for `player_cell_always_visible` at a concrete state. -/
theorem player_cell_always_visible_witness :
    (({ x := 30, y := 30, angle := 0, hasFlashlight := true, stamina := 100,
        isSprinting := false, canSprint := true } : Player).hasFlashlight = true) ∧
    (0 ≤ gridIdx (30 : ℚ) ∧ gridIdx (30 : ℚ) < (3 : ℤ)) ∧
    (((gridIdx (30 : ℚ)).toNat, (gridIdx (30 : ℚ)).toNat) ∈
      updateVisibility 3 3 (fun _ _ => TileType.floor) []
        { x := 30, y := 30, angle := 0, hasFlashlight := true, stamina := 100,
          isSprinting := false, canSprint := true } (fun _ => (1, 0)) ∧
    exploredTick (fun _ => none)
      (updateVisibility 3 3 (fun _ _ => TileType.floor) []
        { x := 30, y := 30, angle := 0, hasFlashlight := true, stamina := 100,
          isSprinting := false, canSprint := true } (fun _ => (1, 0)))
      ((gridIdx (30 : ℚ)).toNat, (gridIdx (30 : ℚ)).toNat) = some 1) :=
  ⟨rfl, ⟨by norm_num [gridIdx], by norm_num [gridIdx]⟩,
    player_cell_always_visible 3 3 (fun _ _ => TileType.floor) []
      { x := 30, y := 30, angle := 0, hasFlashlight := true, stamina := 100,
        isSprinting := false, canSprint := true } (fun _ => (1, 0)) (fun _ => none)
      rfl (by norm_num [gridIdx]) (by norm_num [gridIdx])
      (by norm_num [gridIdx]) (by norm_num [gridIdx])⟩

/-! ## C2: room rectangles never overlap and never change after placement -/

theorem Room.overlaps_comm (a b : Room) : a.overlaps b = b.overlaps a := by
  unfold Room.overlaps
  by_cases h1 : a.x + a.width ≤ b.x <;> by_cases h2 : b.x + b.width ≤ a.x <;>
    by_cases h3 : a.y + a.height ≤ b.y <;> by_cases h4 : b.y + b.height ≤ a.y <;>
    simp [h1, h2, h3, h4]

/-- The pairwise no-overlap invariant of the room list. -/
def RoomsDisjoint (rooms : List Room) : Prop :=
  rooms.Pairwise fun a b => a.overlaps b = false

theorem placeRoomBody_disjoint (g : GenState) (rt : RoomType) (r : Rng)
    (h : RoomsDisjoint g.rooms) : RoomsDisjoint (placeRoomBody g rt r).1.rooms := by
  unfold placeRoomBody carveRoom
  dsimp only
  split
  · exact h
  · next hno =>
    rw [Bool.not_eq_true, List.any_eq_false] at hno
    unfold RoomsDisjoint
    dsimp only
    rw [List.pairwise_append]
    refine ⟨h, List.pairwise_singleton _ _, ?_⟩
    intro a ha b hb
    simp only [List.mem_singleton] at hb
    subst hb
    rw [Room.overlaps_comm]
    exact Bool.eq_false_iff.2 (hno a ha)

theorem generateRoomsLoop_disjoint :
    ∀ (fuel a : Nat) (g : GenState) (r : Rng), RoomsDisjoint g.rooms →
      RoomsDisjoint (generateRoomsLoop fuel (g, a, r)).1.rooms := by
  intro fuel
  induction fuel with
  | zero => intro a g r h; simpa [generateRoomsLoop] using h
  | succ fuel ih =>
    intro a g r h
    simp only [generateRoomsLoop]
    split
    · split
      · exact ih a _ _ h
      · exact ih (a + 1) _ _ (placeRoomBody_disjoint g _ _ h)
    · simpa using h

theorem generatePoolRoomsLoop_disjoint :
    ∀ (fuel a : Nat) (g : GenState) (r : Rng), RoomsDisjoint g.rooms →
      RoomsDisjoint (generatePoolRoomsLoop fuel (g, a, r)).1.rooms := by
  intro fuel
  induction fuel with
  | zero => intro a g r h; simpa [generatePoolRoomsLoop] using h
  | succ fuel ih =>
    intro a g r h
    simp only [generatePoolRoomsLoop]
    split
    · exact ih (a + 1) _ _ (placeRoomBody_disjoint g _ _ h)
    · simpa using h

/-! Rooms-list preservation: every phase after placement leaves the room
list untouched (so no room changes its `(x, y, width, height)`). -/

theorem createCorridor_rooms (g : GenState) (s e : Nat × Nat) (r : Rng) :
    (createCorridor g s e r).1.rooms = g.rooms := by
  unfold createCorridor paintHorizontal paintVertical
  dsimp only
  split <;> rfl

theorem createCorridor_dims (g : GenState) (s e : Nat × Nat) (r : Rng) :
    (createCorridor g s e r).1.width = g.width ∧
    (createCorridor g s e r).1.height = g.height := by
  unfold createCorridor paintHorizontal paintVertical
  dsimp only
  split <;> exact ⟨rfl, rfl⟩

theorem connectLoop_rooms :
    ∀ (k : Nat) (bs : List Nat), bs.length ≤ k →
      ∀ (connected : List Nat) (g : GenState) (r : Rng),
        (connectLoop g connected bs r).1.rooms = g.rooms := by
  intro k
  induction k with
  | zero =>
    intro bs hbs connected g r
    have : bs = [] := List.length_eq_zero.1 (Nat.le_zero.1 hbs)
    subst this
    rw [connectLoop]
  | succ k ih =>
    intro bs hbs connected g r
    cases bs with
    | nil => rw [connectLoop]
    | cons b bs' =>
      rw [connectLoop]
      have hib : ((r.choiceIdx connected.length).2.choiceIdx ((b :: bs').length)).1 <
          (b :: bs').length := Rng.choiceIdx_lt (Nat.succ_pos bs'.length)
      have hlen : ((b :: bs').eraseIdx
          ((r.choiceIdx connected.length).2.choiceIdx ((b :: bs').length)).1).length ≤ k := by
        have := List.length_eraseIdx_add_one hib
        simp only [List.length_cons] at this hbs ⊢
        omega
      rw [ih _ hlen]
      rw [createCorridor_rooms]

theorem extraCorridors_rooms (n : Nat) :
    ∀ (g : GenState) (r : Rng), (extraCorridors g n r).1.rooms = g.rooms := by
  unfold extraCorridors
  suffices h : ∀ (l : List Nat) (s : GenState × Rng),
      (l.foldl (fun (s : GenState × Rng) _ =>
        let ar := s.2.choiceIdx s.1.rooms.length
        let br := ar.2.choiceIdx s.1.rooms.length
        let roomA := s.1.rooms.getD ar.1 default
        let roomB := s.1.rooms.getD br.1 default
        if roomA ≠ roomB then createCorridor s.1 roomA.center roomB.center br.2
        else (s.1, br.2)) s).1.rooms = s.1.rooms by
    intro g r
    exact h (List.range n) (g, r)
  intro l
  induction l with
  | nil => intro s; rfl
  | cons a l ih =>
    intro s
    rw [List.foldl_cons, ih]
    dsimp only
    split
    · rw [createCorridor_rooms]
    · rfl

theorem connectRooms_rooms (g : GenState) (r : Rng) :
    (connectRooms g r).1.rooms = g.rooms := by
  unfold connectRooms
  split
  · rfl
  · rw [extraCorridors_rooms, connectLoop_rooms (List.range' 1 (g.rooms.length - 1)).length _ (Nat.le_refl _)]

theorem scatterTiles_rooms (g : GenState) (room : Room) (t : TileType)
    (count : Nat) (r : Rng) : (scatterTiles g room t count r).1.rooms = g.rooms := by
  unfold scatterTiles
  suffices h : ∀ (l : List Nat) (s : GenState × Rng),
      (l.foldl (fun (s : GenState × Rng) _ =>
        let xr := s.2.randint (room.x + 1) (room.x + room.width - 2)
        let yr := xr.2.randint (room.y + 1) (room.y + room.height - 2)
        if s.1.grid yr.1 xr.1 = TileType.floor then
          ({ s.1 with grid := setTile s.1.grid yr.1 xr.1 t }, yr.2)
        else (s.1, yr.2)) s).1.rooms = s.1.rooms by
    exact h (List.range count) (g, r)
  intro l
  induction l with
  | nil => intro s; rfl
  | cons a l ih =>
    intro s
    rw [List.foldl_cons, ih]
    dsimp only
    split <;> rfl

theorem addFeaturesByType_rooms (g : GenState) (room : Room) (r : Rng) :
    (addFeaturesByType g room r).1.rooms = g.rooms := by
  unfold addFeaturesByType
  rcases room.roomType <;> dsimp only <;>
    first
      | rfl
      | apply scatterTiles_rooms

theorem addRoomFeatures_rooms (g : GenState) (r : Rng) :
    (addRoomFeatures g r).1.rooms = g.rooms := by
  unfold addRoomFeatures
  suffices h : ∀ (l : List Room) (s : GenState × Rng),
      (l.foldl (fun (s : GenState × Rng) room => addFeaturesByType s.1 room s.2) s).1.rooms =
        s.1.rooms by
    exact h g.rooms (g, r)
  intro l
  induction l with
  | nil => intro s; rfl
  | cons a l ih =>
    intro s
    rw [List.foldl_cons, ih, addFeaturesByType_rooms]

theorem addPools_rooms (g : GenState) : (addPools g).rooms = g.rooms := by
  unfold addPools
  suffices h : ∀ (l : List Room) (s : GenState), (l.foldl addPoolToRoom s).rooms = s.rooms by
    exact h g.rooms g
  intro l
  induction l with
  | nil => intro s; rfl
  | cons a l ih =>
    intro s
    rw [List.foldl_cons, ih]
    unfold addPoolToRoom paintPoolWater paintPoolEdges
    split <;> rfl

theorem addPoolroomsFeatures_rooms (g : GenState) (r : Rng) :
    (addPoolroomsFeatures g r).1.rooms = g.rooms := by
  unfold addPoolroomsFeatures
  suffices h : ∀ (l : List Room) (s : GenState × Rng),
      (l.foldl (fun (s : GenState × Rng) room =>
        if room.roomType = RoomType.poolChanging then
          let cr := s.2.randint 1 2
          scatterTiles s.1 room TileType.exit cr.1 cr.2
        else s) s).1.rooms = s.1.rooms by
    exact h g.rooms (g, r)
  intro l
  induction l with
  | nil => intro s; rfl
  | cons a l ih =>
    intro s
    rw [List.foldl_cons, ih]
    dsimp only
    split
    · apply scatterTiles_rooms
    · rfl

theorem addLevelExit_rooms (g : GenState) (r : Rng) :
    (addLevelExit g r).1.rooms = g.rooms := by
  unfold addLevelExit
  rcases hg : g.rooms with _ | ⟨a, l⟩
  · exact hg
  · dsimp only
    split <;> first
      | rfl
      | exact hg

/-- C2 — For every generated level (either biome, any fuel, any random
stream): the final room list is pairwise non-overlapping, and it is exactly
the room list produced by the placement phase — the corridor, feature, pool
and exit passes never change any room's `(x, y, width, height)` (they do not
touch the room list at all). -/
theorem rooms_disjoint_and_frozen (w h fuel : Nat) (lt : LevelType) (r : Rng) :
    RoomsDisjoint (generate w h lt fuel r).1.rooms ∧
    (generate w h lt fuel r).1.rooms =
      (match lt with
       | LevelType.level0 => (generateRooms (initGen w h) fuel r).1.rooms
       | LevelType.poolrooms => (generatePoolRooms (initGen w h) fuel r).1.rooms) := by
  cases lt with
  | level0 =>
    have hrooms : (generate w h LevelType.level0 fuel r).1.rooms =
        (generateRooms (initGen w h) fuel r).1.rooms := by
      show (generateLevel0 (initGen w h) fuel r).1.rooms = _
      unfold generateLevel0
      dsimp only
      rw [addLevelExit_rooms, addRoomFeatures_rooms, connectRooms_rooms]
    refine ⟨?_, hrooms⟩
    rw [hrooms]
    show RoomsDisjoint (generateRoomsLoop fuel (initGen w h, 0, r)).1.rooms
    apply generateRoomsLoop_disjoint
    simp [initGen, RoomsDisjoint]
  | poolrooms =>
    have hrooms : (generate w h LevelType.poolrooms fuel r).1.rooms =
        (generatePoolRooms (initGen w h) fuel r).1.rooms := by
      show (generatePoolroomsLevel (initGen w h) fuel r).1.rooms = _
      unfold generatePoolroomsLevel
      dsimp only
      rw [addLevelExit_rooms, addPoolroomsFeatures_rooms, addPools_rooms, connectRooms_rooms]
    refine ⟨?_, hrooms⟩
    rw [hrooms]
    show RoomsDisjoint (generatePoolRoomsLoop fuel (initGen w h, 0, r)).1.rooms
    apply generatePoolRoomsLoop_disjoint
    simp [initGen, RoomsDisjoint]

/-! ## C1 (part 1): placement invariants — geometry and carved floors -/

/-- A placed room is strictly inside the grid with margin 1 and has both
dimensions at least 3 (true of every entry of the size table). -/
def roomGeomOk (W H : Nat) (room : Room) : Prop :=
  1 ≤ room.x ∧ room.x + room.width < W ∧ 1 ≤ room.y ∧ room.y + room.height < H ∧
  3 ≤ room.width ∧ 3 ≤ room.height

/-- Invariant after room placement: every room is geometrically sane and its
whole rectangle is carved to `FLOOR`. -/
def PlacedInv (g : GenState) : Prop :=
  (∀ room ∈ g.rooms, roomGeomOk g.width g.height room) ∧
  (∀ room ∈ g.rooms, ∀ c : Nat × Nat, room.inRect c → g.grid c.2 c.1 = TileType.floor)

theorem sizeRanges_bounds (t : RoomType) :
    3 ≤ (sizeRanges t).1 ∧ (sizeRanges t).1 ≤ (sizeRanges t).2.1 ∧
    (sizeRanges t).2.1 ≤ 45 ∧ 3 ≤ (sizeRanges t).2.2.1 ∧
    (sizeRanges t).2.2.1 ≤ (sizeRanges t).2.2.2 ∧ (sizeRanges t).2.2.2 ≤ 20 := by
  cases t <;> exact ⟨by decide, by decide, by decide, by decide, by decide, by decide⟩

theorem getRoomSize_bounds (t : RoomType) (r : Rng) :
    3 ≤ (getRoomSize t r).1.1 ∧ (getRoomSize t r).1.1 ≤ 45 ∧
    3 ≤ (getRoomSize t r).1.2 ∧ (getRoomSize t r).1.2 ≤ 20 := by
  obtain ⟨h1, h2, h3, h4, h5, h6⟩ := sizeRanges_bounds t
  unfold getRoomSize
  dsimp only
  have hw := Rng.randint_mem (r := r) h2
  have hh := Rng.randint_mem (r := (r.randint (sizeRanges t).1 (sizeRanges t).2.1).2) h5
  exact ⟨le_trans h1 hw.1, le_trans hw.2 h3, le_trans h4 hh.1, le_trans hh.2 h6⟩

theorem carveRoom_mono (g : GenState) (room : Room) :
    ∀ y x, g.grid y x = TileType.floor → (carveRoom g room).grid y x = TileType.floor := by
  intro y x h
  unfold carveRoom
  dsimp only
  split
  · rfl
  · exact h

theorem carveRoom_sets (g : GenState) (room : Room)
    (hx : room.x + room.width ≤ g.width) (hy : room.y + room.height ≤ g.height) :
    ∀ c : Nat × Nat, room.inRect c → (carveRoom g room).grid c.2 c.1 = TileType.floor := by
  intro c hc
  obtain ⟨h1, h2, h3, h4⟩ := hc
  unfold carveRoom
  dsimp only
  rw [if_pos ⟨h3, h4, h1, h2, by omega, by omega⟩]

theorem carveRoom_rooms (g : GenState) (room : Room) :
    (carveRoom g room).rooms = g.rooms := rfl

theorem carveRoom_width (g : GenState) (room : Room) :
    (carveRoom g room).width = g.width := rfl

theorem carveRoom_height (g : GenState) (room : Room) :
    (carveRoom g room).height = g.height := rfl

theorem placeRoomBody_dims (g : GenState) (rt : RoomType) (r : Rng) :
    (placeRoomBody g rt r).1.width = g.width ∧
    (placeRoomBody g rt r).1.height = g.height := by
  unfold placeRoomBody carveRoom
  dsimp only
  split <;> exact ⟨rfl, rfl⟩

theorem placeRoomBody_inv (g : GenState) (rt : RoomType) (r : Rng)
    (hW : 47 ≤ g.width) (hH : 22 ≤ g.height) (h : PlacedInv g) :
    PlacedInv (placeRoomBody g rt r).1 := by
  obtain ⟨hgeom, hfl⟩ := h
  unfold placeRoomBody
  dsimp only
  split
  · exact ⟨hgeom, hfl⟩
  · obtain ⟨hw3, hw45, hh3, hh20⟩ := getRoomSize_bounds rt r
    have hxlo : (1 : Nat) ≤ g.width - (getRoomSize rt r).1.1 - 1 := by omega
    have hylo : (1 : Nat) ≤ g.height - (getRoomSize rt r).1.2 - 1 := by omega
    have hx := Rng.randint_mem (r := (getRoomSize rt r).2) hxlo
    have hy := Rng.randint_mem
      (r := ((getRoomSize rt r).2.randint 1 (g.width - (getRoomSize rt r).1.1 - 1)).2) hylo
    unfold PlacedInv
    rw [carveRoom_rooms, carveRoom_width, carveRoom_height]
    dsimp only
    constructor
    · intro room hroom
      rw [List.mem_append] at hroom
      rcases hroom with hroom | hroom
      · exact hgeom room hroom
      · simp only [List.mem_singleton] at hroom
        subst hroom
        refine ⟨hx.1, by dsimp only; omega, hy.1, by dsimp only; omega, hw3, hh3⟩
    · intro room hroom c hc
      rw [List.mem_append] at hroom
      rcases hroom with hroom | hroom
      · exact carveRoom_mono _ _ _ _ (hfl room hroom c hc)
      · simp only [List.mem_singleton] at hroom
        subst hroom
        refine carveRoom_sets _ _ ?_ ?_ c hc
        · show _ + _ ≤ g.width
          dsimp only
          omega
        · show _ + _ ≤ g.height
          dsimp only
          omega

theorem generateRoomsLoop_inv :
    ∀ (fuel a : Nat) (g : GenState) (r : Rng), 47 ≤ g.width → 22 ≤ g.height →
      PlacedInv g →
      PlacedInv (generateRoomsLoop fuel (g, a, r)).1 ∧
      (generateRoomsLoop fuel (g, a, r)).1.width = g.width ∧
      (generateRoomsLoop fuel (g, a, r)).1.height = g.height := by
  intro fuel
  induction fuel with
  | zero =>
    intro a g r hW hH h
    exact ⟨h, rfl, rfl⟩
  | succ fuel ih =>
    intro a g r hW hH h
    simp only [generateRoomsLoop]
    split
    · split
      · exact ih a _ _ hW hH h
      · have hd := placeRoomBody_dims g
          (roomTypeList.getD (r.choiceIdx roomTypeList.length).1 RoomType.officeSpace)
          (r.choiceIdx roomTypeList.length).2
        have hinv := placeRoomBody_inv g
          (roomTypeList.getD (r.choiceIdx roomTypeList.length).1 RoomType.officeSpace)
          (r.choiceIdx roomTypeList.length).2 hW hH h
        have := ih (a + 1)
          (placeRoomBody g (roomTypeList.getD (r.choiceIdx roomTypeList.length).1 RoomType.officeSpace)
            (r.choiceIdx roomTypeList.length).2).1
          (placeRoomBody g (roomTypeList.getD (r.choiceIdx roomTypeList.length).1 RoomType.officeSpace)
            (r.choiceIdx roomTypeList.length).2).2
          (by rw [hd.1]; exact hW) (by rw [hd.2]; exact hH) hinv
        exact ⟨this.1, by rw [this.2.1, hd.1], by rw [this.2.2, hd.2]⟩
    · exact ⟨h, rfl, rfl⟩

theorem generatePoolRoomsLoop_inv :
    ∀ (fuel a : Nat) (g : GenState) (r : Rng), 47 ≤ g.width → 22 ≤ g.height →
      PlacedInv g →
      PlacedInv (generatePoolRoomsLoop fuel (g, a, r)).1 ∧
      (generatePoolRoomsLoop fuel (g, a, r)).1.width = g.width ∧
      (generatePoolRoomsLoop fuel (g, a, r)).1.height = g.height := by
  intro fuel
  induction fuel with
  | zero =>
    intro a g r hW hH h
    exact ⟨h, rfl, rfl⟩
  | succ fuel ih =>
    intro a g r hW hH h
    simp only [generatePoolRoomsLoop]
    split
    · have hd := placeRoomBody_dims g
        (poolRoomTypeList.getD (r.choiceIdx poolRoomTypeList.length).1 RoomType.poolArea)
        (r.choiceIdx poolRoomTypeList.length).2
      have hinv := placeRoomBody_inv g
        (poolRoomTypeList.getD (r.choiceIdx poolRoomTypeList.length).1 RoomType.poolArea)
        (r.choiceIdx poolRoomTypeList.length).2 hW hH h
      have := ih (a + 1)
        (placeRoomBody g (poolRoomTypeList.getD (r.choiceIdx poolRoomTypeList.length).1 RoomType.poolArea)
          (r.choiceIdx poolRoomTypeList.length).2).1
        (placeRoomBody g (poolRoomTypeList.getD (r.choiceIdx poolRoomTypeList.length).1 RoomType.poolArea)
          (r.choiceIdx poolRoomTypeList.length).2).2
        (by rw [hd.1]; exact hW) (by rw [hd.2]; exact hH) hinv
      exact ⟨this.1, by rw [this.2.1, hd.1], by rw [this.2.2, hd.2]⟩
    · exact ⟨h, rfl, rfl⟩

/-! ## C1 (part 2): 4-connected floor reachability -/

/-- 4-adjacency of grid cells `(x, y)`. -/
def Adj (c d : Nat × Nat) : Prop :=
  (c.1 = d.1 ∧ (c.2 + 1 = d.2 ∨ d.2 + 1 = c.2)) ∨
  (c.2 = d.2 ∧ (c.1 + 1 = d.1 ∨ d.1 + 1 = c.1))

/-- One flood-fill step: both cells are `FLOOR` and 4-adjacent. -/
def FloorStep (g : Nat → Nat → TileType) (c d : Nat × Nat) : Prop :=
  g c.2 c.1 = TileType.floor ∧ g d.2 d.1 = TileType.floor ∧ Adj c d

/-- Flood-fill reachability over floor tiles. -/
def FloorConn (g : Nat → Nat → TileType) : (Nat × Nat) → (Nat × Nat) → Prop :=
  Relation.ReflTransGen (FloorStep g)

theorem Adj.symm {c d : Nat × Nat} (h : Adj c d) : Adj d c := by
  unfold Adj at *
  omega

theorem floorConn_mono {g g' : Nat → Nat → TileType}
    (hm : ∀ y x, g y x = TileType.floor → g' y x = TileType.floor)
    {c d : Nat × Nat} (h : FloorConn g c d) : FloorConn g' c d :=
  Relation.ReflTransGen.mono
    (fun _ _ hs => ⟨hm _ _ hs.1, hm _ _ hs.2.1, hs.2.2⟩) h

theorem floorConn_symm {g : Nat → Nat → TileType} {c d : Nat × Nat}
    (h : FloorConn g c d) : FloorConn g d c := by
  induction h with
  | refl => exact Relation.ReflTransGen.refl
  | tail _ hstep ih =>
    exact Relation.ReflTransGen.trans
      (Relation.ReflTransGen.single ⟨hstep.2.1, hstep.1, hstep.2.2.symm⟩) ih

theorem floorConn_right (g : Nat → Nat → TileType) (y x : Nat) :
    ∀ n : Nat, (∀ i ≤ n, g y (x + i) = TileType.floor) →
      FloorConn g (x, y) (x + n, y) := by
  intro n
  induction n with
  | zero => intro _; exact Relation.ReflTransGen.refl
  | succ n ih =>
    intro h
    refine Relation.ReflTransGen.tail (ih fun i hi => h i (Nat.le_succ_of_le hi)) ?_
    exact ⟨h n (Nat.le_succ n), h (n + 1) (Nat.le_refl _),
      Or.inr ⟨rfl, Or.inl rfl⟩⟩

theorem floorConn_horizontal (g : Nat → Nat → TileType) (y x1 x2 : Nat)
    (h : ∀ x, min x1 x2 ≤ x → x ≤ max x1 x2 → g y x = TileType.floor) :
    FloorConn g (x1, y) (x2, y) := by
  rcases Nat.le_total x1 x2 with hle | hle
  · have h2 : x2 = x1 + (x2 - x1) := by omega
    rw [h2]
    exact floorConn_right g y x1 (x2 - x1) fun i hi => h (x1 + i) (by omega) (by omega)
  · have h2 : x1 = x2 + (x1 - x2) := by omega
    refine floorConn_symm ?_
    rw [h2]
    exact floorConn_right g y x2 (x1 - x2) fun i hi => h (x2 + i) (by omega) (by omega)

theorem floorConn_down (g : Nat → Nat → TileType) (x y : Nat) :
    ∀ n : Nat, (∀ i ≤ n, g (y + i) x = TileType.floor) →
      FloorConn g (x, y) (x, y + n) := by
  intro n
  induction n with
  | zero => intro _; exact Relation.ReflTransGen.refl
  | succ n ih =>
    intro h
    refine Relation.ReflTransGen.tail (ih fun i hi => h i (Nat.le_succ_of_le hi)) ?_
    exact ⟨h n (Nat.le_succ n), h (n + 1) (Nat.le_refl _),
      Or.inl ⟨rfl, Or.inl rfl⟩⟩

theorem floorConn_vertical (g : Nat → Nat → TileType) (x y1 y2 : Nat)
    (h : ∀ y, min y1 y2 ≤ y → y ≤ max y1 y2 → g y x = TileType.floor) :
    FloorConn g (x, y1) (x, y2) := by
  rcases Nat.le_total y1 y2 with hle | hle
  · have h2 : y2 = y1 + (y2 - y1) := by omega
    rw [h2]
    exact floorConn_down g x y1 (y2 - y1) fun i hi => h (y1 + i) (by omega) (by omega)
  · have h2 : y1 = y2 + (y1 - y2) := by omega
    refine floorConn_symm ?_
    rw [h2]
    exact floorConn_down g x y2 (y1 - y2) fun i hi => h (y2 + i) (by omega) (by omega)

/-- Any two cells of an all-floor rectangle are floor-connected. -/
theorem floorConn_inRect (g : Nat → Nat → TileType) (room : Room)
    (hfl : ∀ c : Nat × Nat, room.inRect c → g c.2 c.1 = TileType.floor)
    (c d : Nat × Nat) (hc : room.inRect c) (hd : room.inRect d) :
    FloorConn g c d := by
  obtain ⟨hc1, hc2, hc3, hc4⟩ := hc
  obtain ⟨hd1, hd2, hd3, hd4⟩ := hd
  have h1 : FloorConn g (c.1, c.2) (d.1, c.2) := by
    refine floorConn_horizontal g c.2 c.1 d.1 fun x hx1 hx2 => ?_
    exact hfl (x, c.2) ⟨by omega, by omega, hc3, hc4⟩
  have h2 : FloorConn g (d.1, c.2) (d.1, d.2) := by
    refine floorConn_vertical g d.1 c.2 d.2 fun y hy1 hy2 => ?_
    exact hfl (d.1, y) ⟨hd1, hd2, by omega, by omega⟩
  exact Relation.ReflTransGen.trans h1 h2

/-- The anchor cell of a room: its top-left corner. -/
def cornerOf (room : Room) : Nat × Nat := (room.x, room.y)

theorem paintHorizontal_mono (g : GenState) (x1 x2 yr : Nat) :
    ∀ y x, g.grid y x = TileType.floor →
      (paintHorizontal g x1 x2 yr).grid y x = TileType.floor := by
  intro y x h
  unfold paintHorizontal
  dsimp only
  split
  · rfl
  · exact h

theorem paintVertical_mono (g : GenState) (y1 y2 xc : Nat) :
    ∀ y x, g.grid y x = TileType.floor →
      (paintVertical g y1 y2 xc).grid y x = TileType.floor := by
  intro y x h
  unfold paintVertical
  dsimp only
  split
  · rfl
  · exact h

theorem paintHorizontal_sets (g : GenState) (x1 x2 yr : Nat) (hy : yr < g.height) :
    ∀ x, min x1 x2 ≤ x → x ≤ max x1 x2 → x < g.width →
      (paintHorizontal g x1 x2 yr).grid yr x = TileType.floor := by
  intro x h1 h2 h3
  unfold paintHorizontal
  dsimp only
  rw [if_pos ⟨rfl, h1, h2, h3, hy⟩]

theorem paintVertical_sets (g : GenState) (y1 y2 xc : Nat) (hx : xc < g.width) :
    ∀ y, min y1 y2 ≤ y → y ≤ max y1 y2 → y < g.height →
      (paintVertical g y1 y2 xc).grid y xc = TileType.floor := by
  intro y h1 h2 h3
  unfold paintVertical
  dsimp only
  rw [if_pos ⟨rfl, h1, h2, hx, h3⟩]

theorem paintHorizontal_dims (g : GenState) (x1 x2 yr : Nat) :
    (paintHorizontal g x1 x2 yr).width = g.width ∧
    (paintHorizontal g x1 x2 yr).height = g.height := ⟨rfl, rfl⟩

theorem paintVertical_dims (g : GenState) (y1 y2 xc : Nat) :
    (paintVertical g y1 y2 xc).width = g.width ∧
    (paintVertical g y1 y2 xc).height = g.height := ⟨rfl, rfl⟩

theorem createCorridor_mono (g : GenState) (s e : Nat × Nat) (r : Rng) :
    ∀ y x, g.grid y x = TileType.floor →
      (createCorridor g s e r).1.grid y x = TileType.floor := by
  intro y x h
  unfold createCorridor
  dsimp only
  split
  · exact paintVertical_mono _ _ _ _ _ _ (paintHorizontal_mono _ _ _ _ _ _ h)
  · exact paintHorizontal_mono _ _ _ _ _ _ (paintVertical_mono _ _ _ _ _ _ h)

/-- An L-shaped corridor carves a floor path between its two in-bounds
endpoints. -/
theorem createCorridor_conn (g : GenState) (s e : Nat × Nat) (r : Rng)
    (hs1 : s.1 < g.width) (hs2 : s.2 < g.height)
    (he1 : e.1 < g.width) (he2 : e.2 < g.height) :
    FloorConn (createCorridor g s e r).1.grid s e := by
  unfold createCorridor
  dsimp only
  split
  · -- horizontal at row s.2, then vertical at column e.1
    have hrow : ∀ x, min s.1 e.1 ≤ x → x ≤ max s.1 e.1 →
        (paintVertical (paintHorizontal g s.1 e.1 s.2) s.2 e.2 e.1).grid s.2 x =
          TileType.floor := by
      intro x h1 h2
      refine paintVertical_mono _ _ _ _ _ _ ?_
      exact paintHorizontal_sets g s.1 e.1 s.2 hs2 x h1 h2 (by omega)
    have hcol : ∀ y, min s.2 e.2 ≤ y → y ≤ max s.2 e.2 →
        (paintVertical (paintHorizontal g s.1 e.1 s.2) s.2 e.2 e.1).grid y e.1 =
          TileType.floor := by
      intro y h1 h2
      exact paintVertical_sets (paintHorizontal g s.1 e.1 s.2) s.2 e.2 e.1 he1 y h1 h2
        (show y < g.height by omega)
    have h1 : FloorConn (paintVertical (paintHorizontal g s.1 e.1 s.2) s.2 e.2 e.1).grid
        (s.1, s.2) (e.1, s.2) := floorConn_horizontal _ s.2 s.1 e.1 hrow
    have h2 : FloorConn (paintVertical (paintHorizontal g s.1 e.1 s.2) s.2 e.2 e.1).grid
        (e.1, s.2) (e.1, e.2) := floorConn_vertical _ e.1 s.2 e.2 hcol
    exact Relation.ReflTransGen.trans h1 h2
  · -- vertical at column s.1, then horizontal at row e.2
    have hcol : ∀ y, min s.2 e.2 ≤ y → y ≤ max s.2 e.2 →
        (paintHorizontal (paintVertical g s.2 e.2 s.1) s.1 e.1 e.2).grid y s.1 =
          TileType.floor := by
      intro y h1 h2
      refine paintHorizontal_mono _ _ _ _ _ _ ?_
      exact paintVertical_sets g s.2 e.2 s.1 hs1 y h1 h2 (by omega)
    have hrow : ∀ x, min s.1 e.1 ≤ x → x ≤ max s.1 e.1 →
        (paintHorizontal (paintVertical g s.2 e.2 s.1) s.1 e.1 e.2).grid e.2 x =
          TileType.floor := by
      intro x h1 h2
      exact paintHorizontal_sets (paintVertical g s.2 e.2 s.1) s.1 e.1 e.2
        (show e.2 < g.height by omega) x h1 h2 (show x < g.width by omega)
    have h1 : FloorConn (paintHorizontal (paintVertical g s.2 e.2 s.1) s.1 e.1 e.2).grid
        (s.1, s.2) (s.1, e.2) := floorConn_vertical _ s.1 s.2 e.2 hcol
    have h2 : FloorConn (paintHorizontal (paintVertical g s.2 e.2 s.1) s.1 e.1 e.2).grid
        (s.1, e.2) (e.1, e.2) := floorConn_horizontal _ e.2 s.1 e.1 hrow
    exact Relation.ReflTransGen.trans h1 h2

/-! ## C1 (part 3): the connection phase links every room's corner -/

theorem getD_mem_nat (l : List Nat) (i d : Nat) (h : i < l.length) :
    l.getD i d ∈ l := by
  induction l generalizing i with
  | nil => simp at h
  | cons a l ih =>
    cases i with
    | zero => exact List.mem_cons_self a l
    | succ i =>
      simp only [List.getD_cons_succ]
      exact List.mem_cons_of_mem a (ih i (by simpa using h))

theorem mem_eraseIdx_or (l : List Nat) (i x : Nat) (hx : x ∈ l) :
    x ∈ l.eraseIdx i ∨ x = l.getD i 0 := by
  induction l generalizing i with
  | nil => cases hx
  | cons a l ih =>
    cases i with
    | zero =>
      rcases List.mem_cons.1 hx with h | h
      · exact Or.inr h
      · exact Or.inl h
    | succ i =>
      rcases List.mem_cons.1 hx with h | h
      · exact Or.inl (h ▸ List.mem_cons_self a _)
      · rcases ih i h with h2 | h2
        · exact Or.inl (List.mem_cons_of_mem a h2)
        · exact Or.inr h2

theorem mem_of_mem_eraseIdx {l : List Nat} {i x : Nat} (h : x ∈ l.eraseIdx i) :
    x ∈ l := by
  induction l generalizing i with
  | nil => simp [List.eraseIdx] at h
  | cons a l ih =>
    cases i with
    | zero => exact List.mem_cons_of_mem a h
    | succ i =>
      rcases List.mem_cons.1 h with h2 | h2
      · exact h2 ▸ List.mem_cons_self a _
      · exact List.mem_cons_of_mem a (ih h2)

theorem center_inRect (room : Room) (hw : 1 ≤ room.width) (hh : 1 ≤ room.height) :
    room.inRect room.center := by
  unfold Room.center Room.inRect
  refine ⟨Nat.le_add_right _ _, ?_, Nat.le_add_right _ _, ?_⟩ <;> dsimp only <;> omega

theorem corner_inRect (room : Room) (hw : 1 ≤ room.width) (hh : 1 ≤ room.height) :
    room.inRect (cornerOf room) := by
  unfold cornerOf Room.inRect
  exact ⟨Nat.le_refl _, by omega, Nat.le_refl _, by omega⟩

theorem connectLoop_conn :
    ∀ (k : Nat) (bs : List Nat), bs.length ≤ k →
    ∀ (connected : List Nat) (g : GenState) (r : Rng),
      47 ≤ g.width → 22 ≤ g.height → PlacedInv g →
      connected ≠ [] →
      (∀ i ∈ connected, i < g.rooms.length) →
      (∀ i ∈ bs, i < g.rooms.length) →
      (∀ i ∈ connected, FloorConn g.grid (cornerOf (g.rooms.getD 0 default))
        (cornerOf (g.rooms.getD i default))) →
      PlacedInv (connectLoop g connected bs r).1 ∧
      (connectLoop g connected bs r).1.width = g.width ∧
      (connectLoop g connected bs r).1.height = g.height ∧
      (∀ i, (i ∈ connected ∨ i ∈ bs) →
        FloorConn (connectLoop g connected bs r).1.grid
          (cornerOf (g.rooms.getD 0 default)) (cornerOf (g.rooms.getD i default))) := by
  intro k
  induction k with
  | zero =>
    intro bs hbs connected g r _ _ hinv _ _ _ hconn
    have : bs = [] := List.length_eq_zero.1 (Nat.le_zero.1 hbs)
    subst this
    rw [connectLoop]
    refine ⟨hinv, rfl, rfl, ?_⟩
    intro i hi
    rcases hi with hi | hi
    · exact hconn i hi
    · cases hi
  | succ k ih =>
    intro bs hbs connected g r hW hH hinv hne hcidx hbidx hconn
    cases bs with
    | nil =>
      rw [connectLoop]
      refine ⟨hinv, rfl, rfl, ?_⟩
      intro i hi
      rcases hi with hi | hi
      · exact hconn i hi
      · cases hi
    | cons b bs' =>
      rw [connectLoop]
      have hclen : 0 < connected.length := List.length_pos.2 hne
      have hia : (r.choiceIdx connected.length).1 < connected.length :=
        Rng.choiceIdx_lt hclen
      have hib : ((r.choiceIdx connected.length).2.choiceIdx ((b :: bs').length)).1 <
          (b :: bs').length := Rng.choiceIdx_lt (Nat.succ_pos bs'.length)
      set aIdx := connected.getD (r.choiceIdx connected.length).1 0 with haIdx
      set ib := ((r.choiceIdx connected.length).2.choiceIdx ((b :: bs').length)).1 with hibdef
      set bIdx := (b :: bs').getD ib 0 with hbIdx
      have haMem : aIdx ∈ connected := getD_mem_nat _ _ _ hia
      have hbMem : bIdx ∈ (b :: bs') := getD_mem_nat _ _ _ hib
      have haLt : aIdx < g.rooms.length := hcidx aIdx haMem
      have hbLt : bIdx < g.rooms.length := hbidx bIdx hbMem
      set roomA := g.rooms.getD aIdx default with hroomA
      set roomB := g.rooms.getD bIdx default with hroomB
      have hAmem : roomA ∈ g.rooms := by
        rw [hroomA, List.getD_eq_getElem?_getD, List.getElem?_eq_getElem haLt]
        exact List.getElem_mem _
      have hBmem : roomB ∈ g.rooms := by
        rw [hroomB, List.getD_eq_getElem?_getD, List.getElem?_eq_getElem hbLt]
        exact List.getElem_mem _
      have hAgeom := hinv.1 roomA hAmem
      have hBgeom := hinv.1 roomB hBmem
      set r2 := ((r.choiceIdx connected.length).2.choiceIdx ((b :: bs').length)).2 with hr2
      set cr := createCorridor g roomA.center roomB.center r2 with hcr
      have hdims := createCorridor_dims g roomA.center roomB.center r2
      have hrooms := createCorridor_rooms g roomA.center roomB.center r2
      have hmono := createCorridor_mono g roomA.center roomB.center r2
      have hinv' : PlacedInv cr.1 := by
        constructor
        · intro room hroom
          rw [hrooms] at hroom
          rw [hdims.1, hdims.2]
          exact hinv.1 room hroom
        · intro room hroom c hc
          rw [hrooms] at hroom
          exact hmono _ _ (hinv.2 room hroom c hc)
      have hcconn : FloorConn cr.1.grid roomA.center roomB.center := by
        refine createCorridor_conn g roomA.center roomB.center r2 ?_ ?_ ?_ ?_
        · unfold Room.center; dsimp only
          obtain ⟨_, h2, _, _, hw3, _⟩ := hAgeom
          omega
        · unfold Room.center; dsimp only
          obtain ⟨_, _, _, h4, _, hh3⟩ := hAgeom
          omega
        · unfold Room.center; dsimp only
          obtain ⟨_, h2, _, _, hw3, _⟩ := hBgeom
          omega
        · unfold Room.center; dsimp only
          obtain ⟨_, _, _, h4, _, hh3⟩ := hBgeom
          omega
      have hconnB : FloorConn cr.1.grid (cornerOf (g.rooms.getD 0 default))
          (cornerOf roomB) := by
        have h0A : FloorConn cr.1.grid (cornerOf (g.rooms.getD 0 default))
            (cornerOf roomA) := floorConn_mono hmono (hconn aIdx haMem)
        have hwA : 1 ≤ roomA.width := by
          obtain ⟨_, _, _, _, hw3, _⟩ := hAgeom; omega
        have hhA : 1 ≤ roomA.height := by
          obtain ⟨_, _, _, _, _, hh3⟩ := hAgeom; omega
        have hwB : 1 ≤ roomB.width := by
          obtain ⟨_, _, _, _, hw3, _⟩ := hBgeom; omega
        have hhB : 1 ≤ roomB.height := by
          obtain ⟨_, _, _, _, _, hh3⟩ := hBgeom; omega
        have hAc : FloorConn cr.1.grid (cornerOf roomA) roomA.center :=
          floorConn_inRect cr.1.grid roomA (fun c hc => hmono _ _ (hinv.2 roomA hAmem c hc))
            (cornerOf roomA) roomA.center
            (corner_inRect roomA hwA hhA)
            (center_inRect roomA hwA hhA)
        have hBc : FloorConn cr.1.grid roomB.center (cornerOf roomB) :=
          floorConn_inRect cr.1.grid roomB (fun c hc => hmono _ _ (hinv.2 roomB hBmem c hc))
            roomB.center (cornerOf roomB)
            (center_inRect roomB hwB hhB)
            (corner_inRect roomB hwB hhB)
        exact ((h0A.trans hAc).trans hcconn).trans hBc
      have hstep := ih ((b :: bs').eraseIdx ib)
        (by
          have := List.length_eraseIdx_add_one hib
          simp only [List.length_cons] at this hbs ⊢
          omega)
        (connected ++ [bIdx]) cr.1 cr.2
        (by rw [hdims.1]; exact hW) (by rw [hdims.2]; exact hH) hinv'
        (by simp)
        (by
          intro i hi
          rw [hrooms]
          rcases List.mem_append.1 hi with hi | hi
          · exact hcidx i hi
          · simp only [List.mem_singleton] at hi
            exact hi ▸ hbLt)
        (by
          intro i hi
          rw [hrooms]
          exact hbidx i (mem_of_mem_eraseIdx hi))
        (by
          intro i hi
          rw [hrooms]
          rcases List.mem_append.1 hi with hi | hi
          · exact floorConn_mono hmono (hconn i hi)
          · simp only [List.mem_singleton] at hi
            subst hi
            exact hconnB)
      rw [hrooms] at hstep
      refine ⟨hstep.1, by rw [hstep.2.1, hdims.1], by rw [hstep.2.2.1, hdims.2], ?_⟩
      intro i hi
      rcases hi with hi | hi
      · exact hstep.2.2.2 i (Or.inl (List.mem_append_left _ hi))
      · rcases mem_eraseIdx_or (b :: bs') ib i hi with h2 | h2
        · exact hstep.2.2.2 i (Or.inr h2)
        · exact hstep.2.2.2 i (Or.inl (List.mem_append_right _ (by simp [h2, hbIdx])))

theorem extraCorridors_inv (n : Nat) :
    ∀ (g : GenState) (r : Rng),
      (extraCorridors g n r).1.width = g.width ∧
      (extraCorridors g n r).1.height = g.height ∧
      (∀ y x, g.grid y x = TileType.floor →
        (extraCorridors g n r).1.grid y x = TileType.floor) := by
  unfold extraCorridors
  suffices h : ∀ (l : List Nat) (s : GenState × Rng),
      (l.foldl (fun (s : GenState × Rng) _ =>
        let ar := s.2.choiceIdx s.1.rooms.length
        let br := ar.2.choiceIdx s.1.rooms.length
        let roomA := s.1.rooms.getD ar.1 default
        let roomB := s.1.rooms.getD br.1 default
        if roomA ≠ roomB then createCorridor s.1 roomA.center roomB.center br.2
        else (s.1, br.2)) s).1.width = s.1.width ∧
      (l.foldl (fun (s : GenState × Rng) _ =>
        let ar := s.2.choiceIdx s.1.rooms.length
        let br := ar.2.choiceIdx s.1.rooms.length
        let roomA := s.1.rooms.getD ar.1 default
        let roomB := s.1.rooms.getD br.1 default
        if roomA ≠ roomB then createCorridor s.1 roomA.center roomB.center br.2
        else (s.1, br.2)) s).1.height = s.1.height ∧
      (∀ y x, s.1.grid y x = TileType.floor →
        (l.foldl (fun (s : GenState × Rng) _ =>
          let ar := s.2.choiceIdx s.1.rooms.length
          let br := ar.2.choiceIdx s.1.rooms.length
          let roomA := s.1.rooms.getD ar.1 default
          let roomB := s.1.rooms.getD br.1 default
          if roomA ≠ roomB then createCorridor s.1 roomA.center roomB.center br.2
          else (s.1, br.2)) s).1.grid y x = TileType.floor) by
    intro g r
    exact h (List.range n) (g, r)
  intro l
  induction l with
  | nil => intro s; exact ⟨rfl, rfl, fun y x h => h⟩
  | cons a l ih =>
    intro s
    rw [List.foldl_cons]
    dsimp only
    split
    · refine ⟨?_, ?_, ?_⟩
      · rw [(ih _).1, (createCorridor_dims _ _ _ _).1]
      · rw [(ih _).2.1, (createCorridor_dims _ _ _ _).2]
      · intro y x h
        exact (ih _).2.2 y x (createCorridor_mono _ _ _ _ y x h)
    · exact ih _

/-! ## C1 (part 4): feature painting only writes strict room interiors -/

theorem getD_mem' {α : Type} (l : List α) (i : Nat) (d : α) (h : i < l.length) :
    l.getD i d ∈ l := by
  rw [List.getD_eq_getElem?_getD, List.getElem?_eq_getElem h]
  simp only [Option.getD_some]
  exact List.getElem_mem h

theorem inInterior_inRect {room : Room} {c : Nat × Nat}
    (h : room.inInterior c) : room.inRect c := by
  obtain ⟨h1, h2, h3, h4⟩ := h
  exact ⟨by omega, by omega, by omega, by omega⟩

theorem adj_inRect {room : Room} {c d : Nat × Nat} (hadj : Adj c d)
    (h : room.inInterior d) : room.inRect c := by
  obtain ⟨h1, h2, h3, h4⟩ := h
  unfold Adj at hadj
  exact ⟨by omega, by omega, by omega, by omega⟩

/-- A cell outside the strict interior of every room of the list: feature
painting never writes such a cell. -/
def OutsideAll (rooms : List Room) (c : Nat × Nat) : Prop :=
  ∀ R ∈ rooms, ¬R.inInterior c

theorem scatterTiles_outside (room : Room) (t : TileType)
    (hw : 3 ≤ room.width) (hh : 3 ≤ room.height) (y x : Nat)
    (hout : ¬room.inInterior (x, y)) :
    ∀ (count : Nat) (g0 : GenState) (r0 : Rng),
      (scatterTiles g0 room t count r0).1.grid y x = g0.grid y x := by
  intro count g0 r0
  unfold scatterTiles
  suffices h : ∀ (l : List Nat) (s : GenState × Rng),
      (l.foldl (fun (s : GenState × Rng) _ =>
        let xr := s.2.randint (room.x + 1) (room.x + room.width - 2)
        let yr := xr.2.randint (room.y + 1) (room.y + room.height - 2)
        if s.1.grid yr.1 xr.1 = TileType.floor then
          ({ s.1 with grid := setTile s.1.grid yr.1 xr.1 t }, yr.2)
        else (s.1, yr.2)) s).1.grid y x = s.1.grid y x by
    exact h (List.range count) (g0, r0)
  intro l
  induction l with
  | nil => intro s; rfl
  | cons a l ih =>
    intro s
    rw [List.foldl_cons, ih]
    dsimp only
    split
    · dsimp only
      unfold setTile
      rw [if_neg]
      intro hcontr
      have hx := @Rng.randint_mem s.2 (room.x + 1) (room.x + room.width - 2)
        (by omega)
      have hy := @Rng.randint_mem
        (s.2.randint (room.x + 1) (room.x + room.width - 2)).2
        (room.y + 1) (room.y + room.height - 2) (by omega)
      refine hout ⟨?_, ?_, ?_, ?_⟩ <;> omega
    · rfl

theorem paintWaterBlock_outside (g : GenState) (room : Room) (y x : Nat)
    (hout : ¬room.inInterior (x, y)) :
    (paintWaterBlock g room).grid y x = g.grid y x := by
  unfold paintWaterBlock
  dsimp only
  split
  · next hcond => exact absurd (⟨by omega, by omega, by omega, by omega⟩ :
      room.inInterior (x, y)) hout
  · rfl

theorem paintPoolEdges_outside (g : GenState) (room : Room) (sx sy pw ph : Nat)
    (y x : Nat) (hout : ¬room.inInterior (x, y)) :
    (paintPoolEdges g room sx sy pw ph).grid y x = g.grid y x := by
  unfold paintPoolEdges
  dsimp only
  split
  · next hcond => exact absurd (⟨by omega, by omega, by omega, by omega⟩ :
      room.inInterior (x, y)) hout
  · rfl

theorem paintPoolWater_outside (g : GenState) (room : Room) (sx sy pw ph : Nat)
    (y x : Nat) (hout : ¬room.inInterior (x, y)) :
    (paintPoolWater g room sx sy pw ph).grid y x = g.grid y x := by
  unfold paintPoolWater
  dsimp only
  split
  · next hcond => exact absurd (⟨by omega, by omega, by omega, by omega⟩ :
      room.inInterior (x, y)) hout
  · rfl

theorem addPoolToRoom_outside (g : GenState) (room : Room) (y x : Nat)
    (hout : ¬room.inInterior (x, y)) :
    (addPoolToRoom g room).grid y x = g.grid y x := by
  unfold addPoolToRoom
  split
  · dsimp only
    exact (paintPoolWater_outside _ _ _ _ _ _ y x hout).trans
      (paintPoolEdges_outside _ _ _ _ _ _ y x hout)
  · rfl

theorem addPools_outside (g0 : GenState) (y x : Nat)
    (hout : ∀ room ∈ g0.rooms, ¬room.inInterior (x, y)) :
    (addPools g0).grid y x = g0.grid y x := by
  unfold addPools
  suffices h : ∀ (l : List Room) (s : GenState),
      (∀ room ∈ l, ¬room.inInterior (x, y)) →
      (l.foldl addPoolToRoom s).grid y x = s.grid y x by
    exact h g0.rooms g0 hout
  intro l
  induction l with
  | nil => intro s _; rfl
  | cons a l ih =>
    intro s hl
    rw [List.foldl_cons, ih _ (fun room hr => hl room (List.mem_cons_of_mem a hr)),
      addPoolToRoom_outside s a y x (hl a (List.mem_cons_self a l))]

theorem addFeaturesByType_outside (g : GenState) (room : Room) (r : Rng)
    (hw : 3 ≤ room.width) (hh : 3 ≤ room.height) (y x : Nat)
    (hout : ¬room.inInterior (x, y)) :
    (addFeaturesByType g room r).1.grid y x = g.grid y x := by
  unfold addFeaturesByType
  rcases room.roomType <;> dsimp only <;>
    first
      | rfl
      | exact scatterTiles_outside room _ hw hh y x hout _ _ _
      | exact paintWaterBlock_outside g room y x hout

theorem addRoomFeatures_outside (g0 : GenState) (r0 : Rng)
    (hgeom : ∀ room ∈ g0.rooms, 3 ≤ room.width ∧ 3 ≤ room.height) (y x : Nat)
    (hout : ∀ room ∈ g0.rooms, ¬room.inInterior (x, y)) :
    (addRoomFeatures g0 r0).1.grid y x = g0.grid y x := by
  unfold addRoomFeatures
  suffices h : ∀ (l : List Room) (s : GenState × Rng),
      (∀ room ∈ l, 3 ≤ room.width ∧ 3 ≤ room.height) →
      (∀ room ∈ l, ¬room.inInterior (x, y)) →
      (l.foldl (fun (s : GenState × Rng) room => addFeaturesByType s.1 room s.2)
        s).1.grid y x = s.1.grid y x by
    exact h g0.rooms (g0, r0) hgeom hout
  intro l
  induction l with
  | nil => intro s _ _; rfl
  | cons a l ih =>
    intro s hg hl
    rw [List.foldl_cons, ih _ (fun room hr => hg room (List.mem_cons_of_mem a hr))
      (fun room hr => hl room (List.mem_cons_of_mem a hr))]
    exact addFeaturesByType_outside s.1 a s.2 (hg a (List.mem_cons_self a l)).1
      (hg a (List.mem_cons_self a l)).2 y x (hl a (List.mem_cons_self a l))

theorem addPoolroomsFeatures_outside (g0 : GenState) (r0 : Rng)
    (hgeom : ∀ room ∈ g0.rooms, 3 ≤ room.width ∧ 3 ≤ room.height) (y x : Nat)
    (hout : ∀ room ∈ g0.rooms, ¬room.inInterior (x, y)) :
    (addPoolroomsFeatures g0 r0).1.grid y x = g0.grid y x := by
  unfold addPoolroomsFeatures
  suffices h : ∀ (l : List Room) (s : GenState × Rng),
      (∀ room ∈ l, 3 ≤ room.width ∧ 3 ≤ room.height) →
      (∀ room ∈ l, ¬room.inInterior (x, y)) →
      (l.foldl (fun (s : GenState × Rng) room =>
        if room.roomType = RoomType.poolChanging then
          let cr := s.2.randint 1 2
          scatterTiles s.1 room TileType.exit cr.1 cr.2
        else s) s).1.grid y x = s.1.grid y x by
    exact h g0.rooms (g0, r0) hgeom hout
  intro l
  induction l with
  | nil => intro s _ _; rfl
  | cons a l ih =>
    intro s hg hl
    rw [List.foldl_cons, ih _ (fun room hr => hg room (List.mem_cons_of_mem a hr))
      (fun room hr => hl room (List.mem_cons_of_mem a hr))]
    dsimp only
    split
    · exact scatterTiles_outside a _ (hg a (List.mem_cons_self a l)).1
        (hg a (List.mem_cons_self a l)).2 y x (hl a (List.mem_cons_self a l)) _ _ _
    · rfl

theorem addLevelExit_outside (g : GenState) (r : Rng)
    (hgeom : ∀ room ∈ g.rooms, 3 ≤ room.width ∧ 3 ≤ room.height) (y x : Nat)
    (hout : ∀ room ∈ g.rooms, ¬room.inInterior (x, y)) :
    (addLevelExit g r).1.grid y x = g.grid y x := by
  unfold addLevelExit
  rcases hg : g.rooms with _ | ⟨a, rest⟩
  · rfl
  · rw [hg] at hgeom hout
    dsimp only
    split
    · rename_i c hc
      have hcmem := List.mem_of_find?_eq_some hc
      have hpool : ∀ z ∈ (if ((a :: rest).filter fun room =>
          64 ≤ room.width * room.height).isEmpty = true then a :: rest
          else (a :: rest).filter fun room => 64 ≤ room.width * room.height),
          z ∈ a :: rest := by
        intro z hz
        split at hz
        · exact hz
        · exact List.mem_of_mem_filter hz
      have hplen : 0 < (if ((a :: rest).filter fun room =>
          64 ≤ room.width * room.height).isEmpty = true then a :: rest
          else (a :: rest).filter fun room => 64 ≤ room.width * room.height).length := by
        split
        · simp
        · next hne =>
          rcases hfe : (a :: rest).filter
              (fun room => decide (64 ≤ room.width * room.height)) with _ | ⟨b, bs⟩
          · rw [hfe] at hne; simp at hne
          · rw [hfe]; simp
      have hermem : (if ((a :: rest).filter fun room =>
          64 ≤ room.width * room.height).isEmpty = true then a :: rest
          else (a :: rest).filter fun room => 64 ≤ room.width * room.height).getD
          (r.choiceIdx (if ((a :: rest).filter fun room =>
            64 ≤ room.width * room.height).isEmpty = true then a :: rest
            else (a :: rest).filter fun room =>
              64 ≤ room.width * room.height).length).1 default ∈ a :: rest :=
        hpool _ (getD_mem' _ _ _ (Rng.choiceIdx_lt hplen))
      have hger := hgeom _ hermem
      have hcint : (if ((a :: rest).filter fun room =>
          64 ≤ room.width * room.height).isEmpty = true then a :: rest
          else (a :: rest).filter fun room => 64 ≤ room.width * room.height).getD
          (r.choiceIdx (if ((a :: rest).filter fun room =>
            64 ≤ room.width * room.height).isEmpty = true then a :: rest
            else (a :: rest).filter fun room =>
              64 ≤ room.width * room.height).length).1 default |>.inInterior c := by
        simp only [List.mem_cons, List.mem_singleton, List.not_mem_nil, or_false]
          at hcmem
        rcases hcmem with h | h | h | h <;> subst h <;>
          exact ⟨by omega, by omega, by omega, by omega⟩
      dsimp only
      unfold setTile
      have hne : ¬(y = c.2 ∧ x = c.1) := by
        intro hcontr
        refine hout _ hermem ?_
        have hxy : (x, y) = c := by rw [hcontr.2, hcontr.1]
        rw [hxy]
        exact hcint
      rw [if_neg hne]
    · rfl

theorem connectRooms_conn (g : GenState) (r : Rng)
    (hW : 47 ≤ g.width) (hH : 22 ≤ g.height) (hinv : PlacedInv g) :
    (connectRooms g r).1.width = g.width ∧
    (connectRooms g r).1.height = g.height ∧
    (∀ room ∈ g.rooms, ∀ c, room.inRect c →
      (connectRooms g r).1.grid c.2 c.1 = TileType.floor) ∧
    (∀ i, i < g.rooms.length →
      FloorConn (connectRooms g r).1.grid (cornerOf (g.rooms.getD 0 default))
        (cornerOf (g.rooms.getD i default))) := by
  unfold connectRooms
  dsimp only
  split
  · refine ⟨rfl, rfl, fun room hroom c hc => hinv.2 room hroom c hc, ?_⟩
    intro i hlen
    have : i = 0 := by omega
    subst this
    exact Relation.ReflTransGen.refl
  · set cl := connectLoop g [0] (List.range' 1 (g.rooms.length - 1)) r with hcl
    have hloop := connectLoop_conn (g.rooms.length - 1) (List.range' 1 (g.rooms.length - 1))
      (by rw [List.length_range']) [0] g r hW hH hinv (by simp)
      (by intro i hi; simp only [List.mem_singleton] at hi; omega)
      (by intro i hi; rw [List.mem_range'_1] at hi; omega)
      (by intro i hi; simp only [List.mem_singleton] at hi; subst hi
          exact Relation.ReflTransGen.refl)
    have hex := extraCorridors_inv (cl.1.rooms.length / 3) cl.1 cl.2
    refine ⟨by rw [hex.1, hloop.2.1], by rw [hex.2.1, hloop.2.2.1], ?_, ?_⟩
    · intro room hroom c hc
      exact hex.2.2 c.2 c.1 (hloop.1.2 room (by rw [connectLoop_rooms _ _ le_rfl]; exact hroom) c hc)
    · intro i hlen
      refine floorConn_mono (fun y x h => hex.2.2 y x h) ?_
      refine hloop.2.2.2 i ?_
      by_cases hi : i = 0
      · exact Or.inl (by simp [hi])
      · refine Or.inr ?_
        rw [List.mem_range'_1]
        omega

/-! ## C1 (part 5): room perimeter rings survive painting and stay connected -/

theorem ring_not_interior (room : Room) (c : Nat × Nat)
    (h : c.1 = room.x ∨ c.1 + 1 = room.x + room.width ∨
         c.2 = room.y ∨ c.2 + 1 = room.y + room.height) :
    ¬room.inInterior c := by
  intro hint
  obtain ⟨h1, h2, h3, h4⟩ := hint
  omega

/-- In a grid where every perimeter-ring cell of `room` is floor, the ring is
4-connected: each ring cell is reachable from the room's top-left corner. -/
theorem ring_corner_conn (g : Nat → Nat → TileType) (room : Room)
    (hfl : ∀ c : Nat × Nat, room.inRect c → ¬room.inInterior c →
      g c.2 c.1 = TileType.floor)
    (c : Nat × Nat) (hc : room.inRect c) (hni : ¬room.inInterior c) :
    FloorConn g (cornerOf room) c := by
  obtain ⟨cx, cy⟩ := c
  obtain ⟨h1, h2, h3, h4⟩ := hc
  dsimp only at h1 h2 h3 h4
  have hside : cx = room.x ∨ cx + 1 = room.x + room.width ∨
      cy = room.y ∨ cy + 1 = room.y + room.height := by
    by_contra hs
    exact hni ⟨by omega, by omega, by omega, by omega⟩
  have htopseg : ∀ x2, room.x ≤ x2 → x2 < room.x + room.width →
      FloorConn g (room.x, room.y) (x2, room.y) := by
    intro x2 ha hb
    refine floorConn_horizontal g room.y room.x x2 fun xx hx1 hx2 => ?_
    exact hfl (xx, room.y) ⟨by omega, by omega, by omega, by omega⟩
      (ring_not_interior room (xx, room.y) (Or.inr (Or.inr (Or.inl rfl))))
  have hleftseg : ∀ y2, room.y ≤ y2 → y2 < room.y + room.height →
      FloorConn g (room.x, room.y) (room.x, y2) := by
    intro y2 ha hb
    refine floorConn_vertical g room.x room.y y2 fun yy hy1 hy2 => ?_
    exact hfl (room.x, yy) ⟨by omega, by omega, by omega, by omega⟩
      (ring_not_interior room (room.x, yy) (Or.inl rfl))
  unfold cornerOf
  rcases hside with hs | hs | hs | hs
  · subst hs
    exact hleftseg cy h3 h4
  · refine Relation.ReflTransGen.trans (htopseg cx h1 h2) ?_
    refine floorConn_vertical g cx room.y cy fun yy hy1 hy2 => ?_
    exact hfl (cx, yy) ⟨by omega, by omega, by omega, by omega⟩
      (ring_not_interior room (cx, yy) (Or.inr (Or.inl (by dsimp only; omega))))
  · subst hs
    exact htopseg cx h1 h2
  · refine Relation.ReflTransGen.trans (hleftseg cy h3 h4) ?_
    refine floorConn_horizontal g cy room.x cx fun xx hx1 hx2 => ?_
    exact hfl (xx, cy) ⟨by omega, by omega, by omega, by omega⟩
      (ring_not_interior room (xx, cy)
        (Or.inr (Or.inr (Or.inr (by dsimp only; omega)))))

theorem rect_disjoint_of_not_overlaps {a b : Room} (h : a.overlaps b = false)
    {c : Nat × Nat} (hc : a.inRect c) : ¬b.inRect c := by
  unfold Room.overlaps at h
  intro hcb
  obtain ⟨h1, h2, h3, h4⟩ := hc
  obtain ⟨h5, h6, h7, h8⟩ := hcb
  simp only [Bool.not_eq_false', Bool.or_eq_true, decide_eq_true_eq] at h
  omega

/-- A perimeter-ring cell of one room of a pairwise non-overlapping list is
outside the strict interior of every room of the list. -/
theorem ring_outsideAll {rooms : List Room} (hdisj : RoomsDisjoint rooms)
    {R : Room} (hR : R ∈ rooms) {c : Nat × Nat} (hrect : R.inRect c)
    (hni : ¬R.inInterior c) : OutsideAll rooms c := by
  intro R' hR'
  by_cases heq : R' = R
  · subst heq; exact hni
  · intro hint
    have ho : R.overlaps R' = false :=
      hdisj.forall (fun u v hv => by rw [Room.overlaps_comm]; exact hv) hR hR'
        (fun he => heq he.symm)
    exact rect_disjoint_of_not_overlaps ho hrect (inInterior_inRect hint)

/-! ## C1 (part 6): splicing a pre-painting floor path around room interiors -/

/-- Core detour argument: a floor chain of the pre-painting grid whose two
endpoints avoid every room interior yields final-grid connectivity, because
every excursion into a room's interior can be replaced by a walk along that
room's perimeter ring (which painting leaves intact). -/
theorem splice_chain (rooms : List Room) (gpre gfin : Nat → Nat → TileType)
    (hunch : ∀ c : Nat × Nat, OutsideAll rooms c → gfin c.2 c.1 = gpre c.2 c.1)
    (hring : ∀ R ∈ rooms, ∀ c : Nat × Nat, R.inRect c → ¬R.inInterior c →
      gfin c.2 c.1 = TileType.floor)
    (hdis : ∀ R ∈ rooms, ∀ R' ∈ rooms, R ≠ R' → ∀ c : Nat × Nat,
      R.inRect c → ¬R'.inRect c) :
    ∀ (l : List (Nat × Nat)), ∀ a b : Nat × Nat,
      List.Chain (FloorStep gpre) a l →
      (a :: l).getLast (List.cons_ne_nil a l) = b →
      OutsideAll rooms b →
      (OutsideAll rooms a → FloorConn gfin a b) ∧
      (∀ R ∈ rooms, R.inInterior a → ∀ e : Nat × Nat,
        R.inRect e → ¬R.inInterior e → FloorConn gfin e b) := by
  intro l
  induction l with
  | nil =>
    intro a b _ hlast hb
    obtain rfl : a = b := hlast
    refine ⟨fun _ => Relation.ReflTransGen.refl, ?_⟩
    intro R hR hint e _ _
    exact absurd hint (hb R hR)
  | cons c l' ih =>
    intro a b hch hlast hb
    rw [List.chain_cons] at hch
    rw [List.getLast_cons_cons] at hlast
    have hihcb := ih c b hch.2 hlast hb
    by_cases houtc : OutsideAll rooms c
    · refine ⟨?_, ?_⟩
      · intro ha
        have hstep : FloorStep gfin a c :=
          ⟨by rw [hunch a ha]; exact hch.1.1,
           by rw [hunch c houtc]; exact hch.1.2.1, hch.1.2.2⟩
        exact Relation.ReflTransGen.head hstep (hihcb.1 houtc)
      · intro R hR hint e he hne
        have hcrect : R.inRect c := adj_inRect (Adj.symm hch.1.2.2) hint
        have hcni : ¬R.inInterior c := houtc R hR
        have h1 : FloorConn gfin e c :=
          Relation.ReflTransGen.trans
            (floorConn_symm (ring_corner_conn gfin R (hring R hR) e he hne))
            (ring_corner_conn gfin R (hring R hR) c hcrect hcni)
        exact h1.trans (hihcb.1 houtc)
    · have hex : ∃ R', R' ∈ rooms ∧ R'.inInterior c := by
        unfold OutsideAll at houtc
        push_neg at houtc
        obtain ⟨R', hR', hint'⟩ := houtc
        exact ⟨R', hR', hint'⟩
      obtain ⟨R', hR', hint'⟩ := hex
      refine ⟨?_, ?_⟩
      · intro ha
        have harect : R'.inRect a := adj_inRect hch.1.2.2 hint'
        exact hihcb.2 R' hR' hint' a harect (ha R' hR')
      · intro R hR hint e he hne
        have hcrect : R.inRect c := adj_inRect (Adj.symm hch.1.2.2) hint
        by_cases heq : R = R'
        · subst heq
          exact hihcb.2 R hR hint' e he hne
        · exact absurd (inInterior_inRect hint') (hdis R hR R' hR' heq c hcrect)

theorem splice_conn (rooms : List Room) (gpre gfin : Nat → Nat → TileType)
    (hunch : ∀ c : Nat × Nat, OutsideAll rooms c → gfin c.2 c.1 = gpre c.2 c.1)
    (hring : ∀ R ∈ rooms, ∀ c : Nat × Nat, R.inRect c → ¬R.inInterior c →
      gfin c.2 c.1 = TileType.floor)
    (hdis : ∀ R ∈ rooms, ∀ R' ∈ rooms, R ≠ R' → ∀ c : Nat × Nat,
      R.inRect c → ¬R'.inRect c)
    {a b : Nat × Nat} (ha : OutsideAll rooms a) (hb : OutsideAll rooms b)
    (hpre : FloorConn gpre a b) : FloorConn gfin a b := by
  obtain ⟨l, hch, hlast⟩ := List.exists_chain_of_relationReflTransGen hpre
  exact (splice_chain rooms gpre gfin hunch hring hdis l a b hch hlast hb).1 ha

/-! ## C1 (part 7): assembly over the full generation pipeline -/

theorem final_phase_conn (rooms : List Room) (gpre gfin : Nat → Nat → TileType)
    (hgeom : ∀ room ∈ rooms, 3 ≤ room.width ∧ 3 ≤ room.height)
    (hdisj : RoomsDisjoint rooms)
    (hrect : ∀ room ∈ rooms, ∀ c : Nat × Nat, room.inRect c →
      gpre c.2 c.1 = TileType.floor)
    (hunch : ∀ c : Nat × Nat, OutsideAll rooms c → gfin c.2 c.1 = gpre c.2 c.1)
    (hconn : ∀ j, j < rooms.length →
      FloorConn gpre (cornerOf (rooms.getD 0 default))
        (cornerOf (rooms.getD j default)))
    (i : Nat) (hi : i < rooms.length) :
    (rooms.getD 0 default).inRect (cornerOf (rooms.getD 0 default)) ∧
    (rooms.getD i default).inRect (cornerOf (rooms.getD i default)) ∧
    gfin (cornerOf (rooms.getD 0 default)).2
      (cornerOf (rooms.getD 0 default)).1 = TileType.floor ∧
    gfin (cornerOf (rooms.getD i default)).2
      (cornerOf (rooms.getD i default)).1 = TileType.floor ∧
    FloorConn gfin (cornerOf (rooms.getD 0 default))
      (cornerOf (rooms.getD i default)) := by
  have h0len : 0 < rooms.length := Nat.lt_of_le_of_lt (Nat.zero_le i) hi
  have h0mem : rooms.getD 0 default ∈ rooms := getD_mem' _ _ _ h0len
  have himem : rooms.getD i default ∈ rooms := getD_mem' _ _ _ hi
  have hg0 := hgeom _ h0mem
  have hgi := hgeom _ himem
  have hrect0 : (rooms.getD 0 default).inRect (cornerOf (rooms.getD 0 default)) :=
    corner_inRect _ (by omega) (by omega)
  have hrecti : (rooms.getD i default).inRect (cornerOf (rooms.getD i default)) :=
    corner_inRect _ (by omega) (by omega)
  have hni0 : ¬(rooms.getD 0 default).inInterior (cornerOf (rooms.getD 0 default)) :=
    ring_not_interior _ _ (Or.inl rfl)
  have hnii : ¬(rooms.getD i default).inInterior (cornerOf (rooms.getD i default)) :=
    ring_not_interior _ _ (Or.inl rfl)
  have hring : ∀ R ∈ rooms, ∀ c : Nat × Nat, R.inRect c → ¬R.inInterior c →
      gfin c.2 c.1 = TileType.floor := by
    intro R hR c hc hn
    rw [hunch c (ring_outsideAll hdisj hR hc hn)]
    exact hrect R hR c hc
  have hdis : ∀ R ∈ rooms, ∀ R' ∈ rooms, R ≠ R' → ∀ c : Nat × Nat,
      R.inRect c → ¬R'.inRect c := by
    intro R hR R' hR' hne c hc
    exact rect_disjoint_of_not_overlaps
      (hdisj.forall (fun u v hv => by rw [Room.overlaps_comm]; exact hv) hR hR' hne)
      hc
  refine ⟨hrect0, hrecti, hring _ h0mem _ hrect0 hni0, hring _ himem _ hrecti hnii, ?_⟩
  exact splice_conn rooms gpre gfin hunch hring hdis
    (ring_outsideAll hdisj h0mem hrect0 hni0)
    (ring_outsideAll hdisj himem hrecti hnii)
    (hconn i hi)

/-- **C1.** After level generation completes (room placement, spanning-tree
corridor carving plus extra corridors, then feature painting and the level
exit), every room of the final room list is reachable from room 0 by
4-connected floor-tile adjacency: for both biomes and every random stream,
the top-left corner cell of each placed room is a floor tile of the final
grid and is flood-fill connected over floor tiles to the top-left corner of
room 0. -/
theorem generation_connectivity (w h : Nat) (lt : LevelType) (fuel : Nat)
    (r : Rng) (i : Nat) (hw : 47 ≤ w) (hh : 22 ≤ h)
    (hi : i < (generate w h lt fuel r).1.rooms.length) :
    ((generate w h lt fuel r).1.rooms.getD 0 default).inRect
      (cornerOf ((generate w h lt fuel r).1.rooms.getD 0 default)) ∧
    ((generate w h lt fuel r).1.rooms.getD i default).inRect
      (cornerOf ((generate w h lt fuel r).1.rooms.getD i default)) ∧
    (generate w h lt fuel r).1.grid
      (cornerOf ((generate w h lt fuel r).1.rooms.getD 0 default)).2
      (cornerOf ((generate w h lt fuel r).1.rooms.getD 0 default)).1
      = TileType.floor ∧
    (generate w h lt fuel r).1.grid
      (cornerOf ((generate w h lt fuel r).1.rooms.getD i default)).2
      (cornerOf ((generate w h lt fuel r).1.rooms.getD i default)).1
      = TileType.floor ∧
    FloorConn (generate w h lt fuel r).1.grid
      (cornerOf ((generate w h lt fuel r).1.rooms.getD 0 default))
      (cornerOf ((generate w h lt fuel r).1.rooms.getD i default)) := by
  have hinit : PlacedInv (initGen w h) :=
    ⟨fun room hr => absurd hr (List.not_mem_nil _),
     fun room hr => absurd hr (List.not_mem_nil _)⟩
  cases lt with
  | level0 =>
    set G1 := generateRooms (initGen w h) fuel r with hG1def
    have hloop := generateRoomsLoop_inv fuel 0 (initGen w h) r hw hh hinit
    have hG11 : G1.1 = (generateRoomsLoop fuel (initGen w h, 0, r)).1 := rfl
    have hinv1 : PlacedInv G1.1 := by rw [hG11]; exact hloop.1
    have hW1 : G1.1.width = w := by rw [hG11]; exact hloop.2.1
    have hH1 : G1.1.height = h := by rw [hG11]; exact hloop.2.2
    have hdisj1 : RoomsDisjoint G1.1.rooms := by
      rw [hG11]; exact generateRoomsLoop_disjoint fuel 0 _ r List.Pairwise.nil
    set G2 := connectRooms G1.1 G1.2 with hG2def
    have hcc := connectRooms_conn G1.1 G1.2 (by rw [hW1]; exact hw)
      (by rw [hH1]; exact hh) hinv1
    have hR2 : G2.1.rooms = G1.1.rooms := connectRooms_rooms G1.1 G1.2
    set G3 := addRoomFeatures G2.1 G2.2 with hG3def
    have hR3 : G3.1.rooms = G2.1.rooms := addRoomFeatures_rooms G2.1 G2.2
    set G4 := addLevelExit G3.1 G3.2 with hG4def
    have hR4 : G4.1.rooms = G3.1.rooms := addLevelExit_rooms G3.1 G3.2
    have hgeom1 : ∀ room ∈ G1.1.rooms, 3 ≤ room.width ∧ 3 ≤ room.height :=
      fun room hr => ⟨(hinv1.1 room hr).2.2.2.2.1, (hinv1.1 room hr).2.2.2.2.2⟩
    have hunch : ∀ c : Nat × Nat, OutsideAll G1.1.rooms c →
        G4.1.grid c.2 c.1 = G2.1.grid c.2 c.1 := by
      intro c hc
      have e1 : G3.1.grid c.2 c.1 = G2.1.grid c.2 c.1 :=
        addRoomFeatures_outside G2.1 G2.2 (by rw [hR2]; exact hgeom1) c.2 c.1
          (by rw [hR2]; exact hc)
      have e2 : G4.1.grid c.2 c.1 = G3.1.grid c.2 c.1 :=
        addLevelExit_outside G3.1 G3.2 (by rw [hR3, hR2]; exact hgeom1) c.2 c.1
          (by rw [hR3, hR2]; exact hc)
      exact e2.trans e1
    have hgen : generate w h LevelType.level0 fuel r = G4 := rfl
    rw [hgen] at hi ⊢
    rw [hR4, hR3, hR2] at hi ⊢
    exact final_phase_conn G1.1.rooms G2.1.grid G4.1.grid hgeom1 hdisj1
      (fun room hr c hc => hcc.2.2.1 room hr c hc) hunch
      (fun j hj => hcc.2.2.2 j hj) i hi
  | poolrooms =>
    set G1 := generatePoolRooms (initGen w h) fuel r with hG1def
    have hloop := generatePoolRoomsLoop_inv fuel 0 (initGen w h) r hw hh hinit
    have hG11 : G1.1 = (generatePoolRoomsLoop fuel (initGen w h, 0, r)).1 := rfl
    have hinv1 : PlacedInv G1.1 := by rw [hG11]; exact hloop.1
    have hW1 : G1.1.width = w := by rw [hG11]; exact hloop.2.1
    have hH1 : G1.1.height = h := by rw [hG11]; exact hloop.2.2
    have hdisj1 : RoomsDisjoint G1.1.rooms := by
      rw [hG11]; exact generatePoolRoomsLoop_disjoint fuel 0 _ r List.Pairwise.nil
    set G2 := connectRooms G1.1 G1.2 with hG2def
    have hcc := connectRooms_conn G1.1 G1.2 (by rw [hW1]; exact hw)
      (by rw [hH1]; exact hh) hinv1
    have hR2 : G2.1.rooms = G1.1.rooms := connectRooms_rooms G1.1 G1.2
    set G3 := addPools G2.1 with hG3def
    have hR3 : G3.rooms = G2.1.rooms := addPools_rooms G2.1
    set G4 := addPoolroomsFeatures G3 G2.2 with hG4def
    have hR4 : G4.1.rooms = G3.rooms := addPoolroomsFeatures_rooms G3 G2.2
    set G5 := addLevelExit G4.1 G4.2 with hG5def
    have hR5 : G5.1.rooms = G4.1.rooms := addLevelExit_rooms G4.1 G4.2
    have hgeom1 : ∀ room ∈ G1.1.rooms, 3 ≤ room.width ∧ 3 ≤ room.height :=
      fun room hr => ⟨(hinv1.1 room hr).2.2.2.2.1, (hinv1.1 room hr).2.2.2.2.2⟩
    have hunch : ∀ c : Nat × Nat, OutsideAll G1.1.rooms c →
        G5.1.grid c.2 c.1 = G2.1.grid c.2 c.1 := by
      intro c hc
      have e1 : G3.grid c.2 c.1 = G2.1.grid c.2 c.1 :=
        addPools_outside G2.1 c.2 c.1 (by rw [hR2]; exact hc)
      have e2 : G4.1.grid c.2 c.1 = G3.grid c.2 c.1 :=
        addPoolroomsFeatures_outside G3 G2.2 (by rw [hR3, hR2]; exact hgeom1) c.2 c.1
          (by rw [hR3, hR2]; exact hc)
      have e3 : G5.1.grid c.2 c.1 = G4.1.grid c.2 c.1 :=
        addLevelExit_outside G4.1 G4.2 (by rw [hR4, hR3, hR2]; exact hgeom1) c.2 c.1
          (by rw [hR4, hR3, hR2]; exact hc)
      exact (e3.trans e2).trans e1
    have hgen : generate w h LevelType.poolrooms fuel r = G5 := rfl
    rw [hgen] at hi ⊢
    rw [hR5, hR4, hR3, hR2] at hi ⊢
    exact final_phase_conn G1.1.rooms G2.1.grid G5.1.grid hgeom1 hdisj1
      (fun room hr c hc => hcc.2.2.1 room hr c hc) hunch
      (fun j hj => hcc.2.2.2 j hj) i hi

/-- Witness for C1: a 47×22 Level 0 run with the all-zeros stream and fuel 1
places exactly one room, and the theorem applies to it. -/
theorem generation_connectivity_witness :
    47 ≤ 47 ∧ 22 ≤ 22 ∧
    0 < (generate 47 22 LevelType.level0 1 ⟨fun _ => 0, 0⟩).1.rooms.length ∧
    (((generate 47 22 LevelType.level0 1 ⟨fun _ => 0, 0⟩).1.rooms.getD 0
        default).inRect
      (cornerOf ((generate 47 22 LevelType.level0 1 ⟨fun _ => 0, 0⟩).1.rooms.getD 0
        default)) ∧
    ((generate 47 22 LevelType.level0 1 ⟨fun _ => 0, 0⟩).1.rooms.getD 0
        default).inRect
      (cornerOf ((generate 47 22 LevelType.level0 1 ⟨fun _ => 0, 0⟩).1.rooms.getD 0
        default)) ∧
    (generate 47 22 LevelType.level0 1 ⟨fun _ => 0, 0⟩).1.grid
      (cornerOf ((generate 47 22 LevelType.level0 1 ⟨fun _ => 0, 0⟩).1.rooms.getD 0
        default)).2
      (cornerOf ((generate 47 22 LevelType.level0 1 ⟨fun _ => 0, 0⟩).1.rooms.getD 0
        default)).1 = TileType.floor ∧
    (generate 47 22 LevelType.level0 1 ⟨fun _ => 0, 0⟩).1.grid
      (cornerOf ((generate 47 22 LevelType.level0 1 ⟨fun _ => 0, 0⟩).1.rooms.getD 0
        default)).2
      (cornerOf ((generate 47 22 LevelType.level0 1 ⟨fun _ => 0, 0⟩).1.rooms.getD 0
        default)).1 = TileType.floor ∧
    FloorConn (generate 47 22 LevelType.level0 1 ⟨fun _ => 0, 0⟩).1.grid
      (cornerOf ((generate 47 22 LevelType.level0 1 ⟨fun _ => 0, 0⟩).1.rooms.getD 0
        default))
      (cornerOf ((generate 47 22 LevelType.level0 1 ⟨fun _ => 0, 0⟩).1.rooms.getD 0
        default))) :=
  ⟨by decide, by decide, by decide,
   generation_connectivity 47 22 LevelType.level0 1 ⟨fun _ => 0, 0⟩ 0
     (by decide) (by decide) (by decide)⟩

end Backrooms
